import Mathlib

/-!
# LXC configuration template and resolv.conf reconciliation

A shallow embedding of `lxc_template.go`:

* `getMemorySwap`, the helper bound into the template;
* `LxcTemplate`, the template executed on a container descriptor;
* `checkResolvConf`, the start-up routine that rewrites the host's
  `/etc/resolv.conf` when it holds a `127...` entry.

Machine integers (`int64`) are mathematical integers together with the
explicit reduction `wrapInt64`; texts are `String`s (sequences of Unicode
code points).
-/

namespace Docker

/-! ## Machine integers -/

/-- The range of a Go `int64`. -/
def IsInt64 (x : Int) : Prop := -(2 : Int) ^ 63 ≤ x ∧ x < (2 : Int) ^ 63

instance (x : Int) : Decidable (IsInt64 x) := by
  unfold IsInt64; infer_instance

/-- Reduction of a mathematical integer to the `int64` holding its low 64
bits (two's complement), the result of Go's wrapping arithmetic. -/
def wrapInt64 (x : Int) : Int := (x + (2 : Int) ^ 63) % (2 : Int) ^ 64 - (2 : Int) ^ 63

/-! ## Data model -/

/-- Modelled from the spec: the `Config` struct is declared outside
`lxc_template.go`; only the fields the template and `getMemorySwap` read are
kept. `Memory` and `MemorySwap` are `int64` in the program. -/
structure Config where
  Hostname : String
  Memory : Int
  MemorySwap : Int
  deriving DecidableEq, Repr

/-- Both integer fields of a `Config` are in the `int64` range. -/
def Config.WellFormed (c : Config) : Prop := IsInt64 c.Memory ∧ IsInt64 c.MemorySwap

instance (c : Config) : Decidable c.WellFormed := by
  unfold Config.WellFormed; infer_instance

/-! ## `getMemorySwap` -/

/-- The Go function `getMemorySwap`:
`if config.MemorySwap < 0 { return 0 }; return config.Memory * 2`,
the product being an `int64` product. -/
def getMemorySwap (config : Config) : Int :=
  if config.MemorySwap < 0 then 0 else wrapInt64 (config.Memory * 2)

/-! ## The template -/

/-- Modelled from the spec: the `NetworkSettings` struct is declared outside
`lxc_template.go`; the template reads a string address and an integer prefix
length. -/
structure NetworkSettings where
  IpAddress : String
  IpPrefixLen : Int
  deriving DecidableEq, Repr

/-- Modelled from the spec: the mount point of a container, declared outside
`lxc_template.go`; the template reads `Root`. -/
structure Mountpoint where
  Root : String
  deriving DecidableEq, Repr

/-- Modelled from the spec: the container descriptor the template is executed
on, declared outside `lxc_template.go`. -/
structure Container where
  Id : String
  Config : Config
  NetworkSettings : NetworkSettings
  Mountpoint : Mountpoint
  SysInitPath : String
  deriving DecidableEq, Repr

/-- How `text/template` prints an integer value: decimal digits, with a leading
`-` for a negative number. -/
def printInt (n : Int) : String := toString n

/-- The template from its start to the end of the hostname block:
the `if .Config.Hostname` action is true for a non-empty string. -/
def hostnameSection (c : Container) : String :=
  "\n" ++
  "# hostname\n" ++
  (if c.Config.Hostname ≠ "" then
    "\n" ++
    "lxc.utsname = " ++ c.Config.Hostname ++ "\n"
  else
    "\n" ++
    "lxc.utsname = " ++ c.Id ++ "\n") ++
  "\n" ++
  "#lxc.aa_profile = unconfined\n" ++
  "\n"

/-- The template lines under the header `network configuration`. -/
def networkSection (c : Container) : String :=
  "# network configuration\n" ++
  "lxc.network.type = veth\n" ++
  "lxc.network.flags = up\n" ++
  "lxc.network.link = lxcbr0\n" ++
  "lxc.network.name = eth0\n" ++
  "lxc.network.mtu = 1500\n" ++
  "lxc.network.ipv4 = " ++ c.NetworkSettings.IpAddress ++ "/" ++
    printInt c.NetworkSettings.IpPrefixLen ++ "\n" ++
  "\n"

/-- The template lines under the header `root filesystem`; the action that
declares the variable `ROOTFS` prints nothing. -/
def rootfsSection (c : Container) : String :=
  let ROOTFS := c.Mountpoint.Root
  "# root filesystem\n" ++
  "\n" ++
  "lxc.rootfs = " ++ ROOTFS ++ "\n" ++
  "\n"

/-- The static template lines from the pts limit to the commented-out rtc
device: console, tty and the device deny/allow list. -/
def deviceSection : String :=
  "# use a dedicated pts for the container (and limit the number of pseudo terminal\n" ++
  "# available)\n" ++
  "lxc.pts = 1024\n" ++
  "\n" ++
  "# disable the main console\n" ++
  "lxc.console = none\n" ++
  "\n" ++
  "# no controlling tty at all\n" ++
  "lxc.tty = 1\n" ++
  "\n" ++
  "# no implicit access to devices\n" ++
  "lxc.cgroup.devices.deny = a\n" ++
  "\n" ++
  "# /dev/null and zero\n" ++
  "lxc.cgroup.devices.allow = c 1:3 rwm\n" ++
  "lxc.cgroup.devices.allow = c 1:5 rwm\n" ++
  "\n" ++
  "# consoles\n" ++
  "lxc.cgroup.devices.allow = c 5:1 rwm\n" ++
  "lxc.cgroup.devices.allow = c 5:0 rwm\n" ++
  "lxc.cgroup.devices.allow = c 4:0 rwm\n" ++
  "lxc.cgroup.devices.allow = c 4:1 rwm\n" ++
  "\n" ++
  "# /dev/urandom,/dev/random\n" ++
  "lxc.cgroup.devices.allow = c 1:9 rwm\n" ++
  "lxc.cgroup.devices.allow = c 1:8 rwm\n" ++
  "\n" ++
  "# /dev/pts/* - pts namespaces are \x22coming soon\x22\n" ++
  "lxc.cgroup.devices.allow = c 136:* rwm\n" ++
  "lxc.cgroup.devices.allow = c 5:2 rwm\n" ++
  "\n" ++
  "# tuntap\n" ++
  "lxc.cgroup.devices.allow = c 10:200 rwm\n" ++
  "\n" ++
  "# fuse\n" ++
  "#lxc.cgroup.devices.allow = c 10:229 rwm\n" ++
  "\n" ++
  "# rtc\n" ++
  "#lxc.cgroup.devices.allow = c 254:0 rwm\n" ++
  "\n" ++
  "\n"

/-- The template lines from the header `standard mount point` to the bind mount
of the resolver file. `resolvConfOrig` is the value the template function
`getResolvConfPath` returns; the action that declares it prints nothing. -/
def mountSection (c : Container) (resolvConfOrig : String) : String :=
  let ROOTFS := c.Mountpoint.Root
  "# standard mount point\n" ++
  "lxc.mount.entry = proc " ++ ROOTFS ++ "/proc proc nosuid,nodev,noexec 0 0\n" ++
  "lxc.mount.entry = sysfs " ++ ROOTFS ++ "/sys sysfs nosuid,nodev,noexec 0 0\n" ++
  "lxc.mount.entry = devpts " ++ ROOTFS ++
    "/dev/pts devpts newinstance,ptmxmode=0666,nosuid,noexec 0 0\n" ++
  "#lxc.mount.entry = varrun " ++ ROOTFS ++
    "/var/run tmpfs mode=755,size=4096k,nosuid,nodev,noexec 0 0\n" ++
  "#lxc.mount.entry = varlock " ++ ROOTFS ++
    "/var/lock tmpfs size=1024k,nosuid,nodev,noexec 0 0\n" ++
  "#lxc.mount.entry = shm " ++ ROOTFS ++
    "/dev/shm tmpfs size=65536k,nosuid,nodev,noexec 0 0\n" ++
  "\n" ++
  "# Inject docker-init\n" ++
  "lxc.mount.entry = " ++ c.SysInitPath ++ " " ++ ROOTFS ++ "/sbin/init none bind,ro 0 0\n" ++
  "\n" ++
  "# In order to get a working DNS environment, mount bind (ro) the host\x27s /etc/resolv.conf into the container\n" ++
  "\n" ++
  "lxc.mount.entry =" ++ resolvConfOrig ++ " " ++ ROOTFS ++
    "/etc/resolv.conf none bind,ro 0 0\n" ++
  "\n"

/-- The template lines that drop capabilities. -/
def capDropSection : String :=
  "# drop linux capabilities (apply mainly to the user root in the container)\n" ++
  "lxc.cap.drop = audit_control audit_write mac_admin mac_override mknod setfcap setpcap sys_admin sys_boot sys_module sys_nice sys_pacct sys_rawio sys_resource sys_time sys_tty_config\n" ++
  "\n"

/-- The template from the header `limits` to its end. The `if .Config.Memory`
action is true for a non-zero integer, and `with` runs its body, with `memSwap`
bound to the value of `getMemorySwap .Config`, when that value is non-zero. -/
def limitsSection (c : Container) : String :=
  "# limits\n" ++
  (if c.Config.Memory ≠ 0 then
    "\n" ++
    "lxc.cgroup.memory.limit_in_bytes = " ++ printInt c.Config.Memory ++ "\n" ++
    "lxc.cgroup.memory.soft_limit_in_bytes = " ++ printInt c.Config.Memory ++ "\n" ++
    (let memSwap := getMemorySwap c.Config
     if memSwap ≠ 0 then
      "\n" ++
      "lxc.cgroup.memory.memsw.limit_in_bytes = " ++ printInt memSwap ++ "\n"
     else "") ++
    "\n"
  else "") ++
  "\n"

/-- Execution of the compiled `LxcTemplate` on a container: the text written,
as a function of the container and of the value of the package variable
`resolvConfPath` (read through `getResolvConfPath`). -/
def LxcTemplate (c : Container) (resolvConfPath : String) : String :=
  hostnameSection c ++
  networkSection c ++
  rootfsSection c ++
  deviceSection ++
  mountSection c resolvConfPath ++
  capDropSection ++
  limitsSection c

/-! ## The pattern `127(.[0-9]{0,3}){3}` and `ReplaceAllLiteral`

The pattern is a constant of `checkResolvConf`. Go's `regexp` finds the
leftmost match and, among the matches starting there, the one a backtracking
search meets first: a counted repetition `[0-9]{0,3}` takes as many digits as
it can and gives them back one at a time. `.` matches any character but a
newline. -/

/-- The first `k` characters of `s` exist and are all in `[0-9]`. -/
def digitsAt (k : Nat) (s : List Char) : Bool :=
  decide (k ≤ s.length) && (s.take k).all Char.isDigit

/-- Match of `(.[0-9]{0,3}){n}` at the head of `s`: the number of characters
of the preferred match, `none` when there is no match. -/
def matchGroups : Nat → List Char → Option Nat
  | 0, _ => some 0
  | _ + 1, [] => none
  | n + 1, c :: s =>
    if c = '\n' then none
    else
      (if digitsAt 3 s then (matchGroups n (s.drop 3)).map (· + 4) else none) <|>
      (if digitsAt 2 s then (matchGroups n (s.drop 2)).map (· + 3) else none) <|>
      (if digitsAt 1 s then (matchGroups n (s.drop 1)).map (· + 2) else none) <|>
      (matchGroups n s).map (· + 1)

/-- Match of `127(.[0-9]{0,3}){3}` at the head of `s`: the length of the
match, `none` when the pattern does not match there. -/
def matchAt (s : List Char) : Option Nat :=
  match s with
  | '1' :: '2' :: '7' :: t => (matchGroups 3 t).map (· + 3)
  | _ => none

/-- The pattern matches at some position of `s`. -/
def hasMatch : List Char → Bool
  | [] => false
  | c :: s => (matchAt (c :: s)).isSome || hasMatch s

/-- The scan of `Regexp.ReplaceAllLiteral`: `skip` counts the characters of the
current match still to be passed over; outside a match the pattern is tried at
each position from left to right, a match is replaced by `repl` and the search
resumes at its end. -/
def replaceFrom (repl : List Char) : Nat → List Char → List Char
  | _, [] => []
  | skip + 1, _ :: s => replaceFrom repl skip s
  | 0, c :: s =>
    match matchAt (c :: s) with
    | some n => repl ++ replaceFrom repl (n - 1) s
    | none => c :: replaceFrom repl 0 s

/-- The call `r.ReplaceAllLiteral(src, repl)` for the compiled pattern `r`. -/
def ReplaceAllLiteral (src repl : String) : String :=
  ⟨replaceFrom repl.data 0 src.data⟩

/-! ## Package `net`: `ParseCIDR` and `IP.String`

An `IP` is its byte sequence, 4 or 16 bytes long, as in Go. -/

/-- Go's `net.IP`: a slice of bytes. -/
abbrev IP := List Nat

/-- The bound `big` of the number parsers of package `net`. -/
def big : Nat := 0xFFFFFF

/-- The loop of `dtoi`: accumulate decimal digits; fail once the value reaches
`big`. Returns the value and the unread rest. -/
def dtoiLoop : List Char → Nat → Option (Nat × List Char)
  | [], n => some (n, [])
  | c :: s, n =>
    if c.isDigit then
      let n1 := n * 10 + (c.toNat - '0'.toNat)
      if n1 ≥ big then none else dtoiLoop s n1
    else some (n, c :: s)

/-- Go's `dtoi`: a decimal number at the head of `s`; fails when there is no
digit. -/
def dtoi (s : List Char) : Option (Nat × List Char) :=
  match s with
  | [] => none
  | c :: _ => if c.isDigit then dtoiLoop s 0 else none

/-- The value of a hexadecimal digit, `none` for another character. -/
def hexVal (c : Char) : Option Nat :=
  if '0' ≤ c ∧ c ≤ '9' then some (c.toNat - '0'.toNat)
  else if 'a' ≤ c ∧ c ≤ 'f' then some (c.toNat - 'a'.toNat + 10)
  else if 'A' ≤ c ∧ c ≤ 'F' then some (c.toNat - 'A'.toNat + 10)
  else none

/-- The loop of `xtoi`. -/
def xtoiLoop : List Char → Nat → Option (Nat × List Char)
  | [], n => some (n, [])
  | c :: s, n =>
    match hexVal c with
    | some d =>
      let n1 := n * 16 + d
      if n1 ≥ big then none else xtoiLoop s n1
    | none => some (n, c :: s)

/-- Go's `xtoi`: a hexadecimal number at the head of `s`; fails when there is
no digit. -/
def xtoi (s : List Char) : Option (Nat × List Char) :=
  match s with
  | [] => none
  | c :: _ => if (hexVal c).isSome then xtoiLoop s 0 else none

/-- The prefix of an IPv4 address in its 16-byte form. -/
def v4InV6Prefix : List Nat := [0, 0, 0, 0, 0, 0, 0, 0, 0, 0, 0xff, 0xff]

/-- Go's `IPv4(a, b, c, d)`: the 16-byte form of an IPv4 address. -/
def IPv4 (a b c d : Nat) : IP := v4InV6Prefix ++ [a, b, c, d]

/-- One octet of a dotted address: a decimal number not above `0xFF`; leading
zeros are read like any other digit. -/
def parseOctet (s : List Char) : Option (Nat × List Char) :=
  match dtoi s with
  | some (n, rest) => if n > 0xFF then none else some (n, rest)
  | none => none

/-- The `.` that must separate two octets. -/
def parseDot (s : List Char) : Option (List Char) :=
  match s with
  | '.' :: rest => some rest
  | _ => none

/-- Go's `parseIPv4`: four octets separated by dots, and nothing after them. -/
def parseIPv4 (s : List Char) : Option IP := do
  let (a, s) ← parseOctet s
  let s ← parseDot s
  let (b, s) ← parseOctet s
  let s ← parseDot s
  let (c, s) ← parseOctet s
  let s ← parseDot s
  let (d, s) ← parseOctet s
  if s = [] then some (IPv4 a b c d) else none

/-- The main loop of Go's `parseIPv6`, run while fewer than 16 bytes are
parsed: `k` is the number of 16-bit groups that still fit, `acc` the bytes
parsed so far and `ellipsis` the byte position of `::` when one was seen.
Returns the bytes and the ellipsis when the whole text was read. -/
def parseIPv6Loop : Nat → List Char → List Nat → Option Nat → Option (List Nat × Option Nat)
  | 0, s, acc, ellipsis => if s = [] then some (acc, ellipsis) else none
  | k + 1, s, acc, ellipsis =>
    match xtoi s with
    | none => none
    | some (n, s1) =>
      if n > 0xFFFF then none
      else
        match s1 with
        | '.' :: _ =>
          if ellipsis.isNone ∧ acc.length ≠ 12 then none
          else if acc.length + 4 > 16 then none
          else
            match parseIPv4 s with
            | none => none
            | some ip4 => some (acc ++ ip4.drop 12, ellipsis)
        | [] => some (acc ++ [n / 256, n % 256], ellipsis)
        | c :: s2 =>
          if c ≠ ':' ∨ s2 = [] then none
          else
            match s2 with
            | ':' :: s3 =>
              if ellipsis.isSome then none
              else if s3 = [] then some (acc ++ [n / 256, n % 256], some (acc.length + 2))
              else parseIPv6Loop k s3 (acc ++ [n / 256, n % 256]) (some (acc.length + 2))
            | _ => parseIPv6Loop k s2 (acc ++ [n / 256, n % 256]) ellipsis

/-- The end of Go's `parseIPv6`: when fewer than 16 bytes were parsed, the
ellipsis is expanded to the missing zero bytes. -/
def expandEllipsis (acc : List Nat) (ellipsis : Option Nat) : Option IP :=
  if acc.length < 16 then
    match ellipsis with
    | none => none
    | some e => some (acc.take e ++ List.replicate (16 - acc.length) 0 ++ acc.drop e)
  else some acc

/-- Go's `parseIPv6` (no zone). -/
def parseIPv6 (s : List Char) : Option IP :=
  match s with
  | [':', ':'] => some (List.replicate 16 0)
  | ':' :: ':' :: rest =>
    match parseIPv6Loop 8 rest [] (some 0) with
    | some (acc, e) => expandEllipsis acc e
    | none => none
  | _ =>
    match parseIPv6Loop 8 s [] none with
    | some (acc, e) => expandEllipsis acc e
    | none => none

/-- One byte of `CIDRMask`: byte `i` of the mask with `ones` leading one bits. -/
def maskByte (ones i : Nat) : Nat :=
  if ones ≥ 8 * (i + 1) then 0xff
  else if ones ≤ 8 * i then 0
  else 0xff - (0xff >>> (ones - 8 * i))

/-- Go's `CIDRMask(ones, 8 * len)` for `ones ≤ 8 * len`. -/
def CIDRMask (ones len : Nat) : List Nat :=
  (List.range len).map (maskByte ones)

/-- Go's `IP.Mask`: the bytes of `ip` and-ed with the mask; a 4-byte mask
applies to the last 4 bytes of a 16-byte IPv4 address, and a 16-byte mask whose
first 12 bytes are `0xff` applies with its last 4 bytes to a 4-byte address. -/
def IP.Mask (ip : IP) (mask : List Nat) : Option IP :=
  let mask := if mask.length = 16 ∧ ip.length = 4 ∧ (mask.take 12).all (· == 0xff)
    then mask.drop 12 else mask
  let ip := if mask.length = 4 ∧ ip.length = 16 ∧ ip.take 12 = v4InV6Prefix
    then ip.drop 12 else ip
  if ip.length ≠ mask.length then none
  else some (List.zipWith (· &&& ·) ip mask)

/-- Go's `IP.To4`: the 4-byte form of an IPv4 address, `none` for another
address. -/
def IP.To4 (ip : IP) : Option IP :=
  if ip.length = 4 then some ip
  else if ip.length = 16 ∧ ip.take 12 = v4InV6Prefix then some (ip.drop 12)
  else none

/-- A number in lower-case hexadecimal without leading zeros (`itox(n, 1)`). -/
def itox (n : Nat) : String := ⟨Nat.toDigits 16 n⟩

/-- The 16-bit groups of a 16-byte address. -/
def groups : List Nat → List Nat
  | hi :: lo :: rest => (hi * 256 + lo) :: groups rest
  | _ => []

/-- The number of zero groups at the head of `g`. -/
def zeroRun : List Nat → Nat
  | 0 :: rest => zeroRun rest + 1
  | _ => 0

/-- The first longest run of zero groups of `g`, as `(start, length)` in groups
counted from position `i`; `best` is the longest run found before. -/
def longestZeroRun : List Nat → Nat → Nat × Nat → Nat × Nat
  | [], _, best => best
  | x :: rest, i, best =>
    let n := zeroRun (x :: rest)
    longestZeroRun rest (i + 1) (if n > best.2 then (i, n) else best)

/-- The groups in hexadecimal, separated by colons. -/
def joinGroups : List Nat → String
  | [] => ""
  | [x] => itox x
  | x :: rest => itox x ++ ":" ++ joinGroups rest

/-- Go's `IP.String`: dotted decimal for an IPv4 address; for another 16-byte
address the groups in hexadecimal, the first longest run of two or more zero
groups written `::`. -/
def IP.String (ip : IP) : String :=
  if ip.length = 0 then ""
  else
    match IP.To4 ip with
    | some [a, b, c, d] => toString a ++ "." ++ toString b ++ "." ++ toString c ++ "." ++ toString d
    | _ =>
      if ip.length ≠ 16 then "?"
      else
        let g := groups ip
        let (e0, n) := longestZeroRun g 0 (0, 0)
        if n ≤ 1 then joinGroups g
        else joinGroups (g.take e0) ++ "::" ++ joinGroups (g.drop (e0 + n))

/-- Go's `net.ParseCIDR`: the text before the first `/` is an IPv4 or, failing
that, an IPv6 address, the text after it a decimal prefix length of at most 32
or 128 bits. Returns the address and the address of its network (the address
with its host bits cleared), `none` when the text does not parse. -/
def ParseCIDR (s : String) : Option (IP × IP) :=
  if '/' ∈ s.data then
    let ipstr := s.data.takeWhile (· ≠ '/')
    let maskstr := (s.data.dropWhile (· ≠ '/')).drop 1
    let parsed : Option (IP × Nat) :=
      match parseIPv4 ipstr with
      | some ip => some (ip, 4)
      | none =>
        match parseIPv6 ipstr with
        | some ip => some (ip, 16)
        | none => none
    match parsed, dtoi maskstr with
    | some (ip, iplen), some (n, []) =>
      if n > 8 * iplen then none
      else
        match IP.Mask ip (CIDRMask n iplen) with
        | some network => some (ip, network)
        | none => none
    | _, _ => none
  else none

/-! ## `checkResolvConf`

The operating system is a `Host`: what each call of `checkResolvConf` into
`ioutil`, `net` and `os` answers. The program state is the package variable
`resolvConfPath` together with the directories and files the routine has
created. A `panic` ends the routine at once. -/

/-- A network interface as `checkResolvConf` sees it: the result of
`Addrs()`, `none` for an error, otherwise the texts `a[k].String()` of the
addresses in order. -/
structure Interface where
  Addrs : Option (List String)
  deriving DecidableEq, Repr

/-- The answers of the operating system. `none` and `false` stand for a
non-nil error. -/
structure Host where
  /-- Result of `ioutil.ReadFile(path)`: the content of the file. -/
  ReadFile : String → Option String
  /-- Result of `net.InterfaceByName(name)`. -/
  InterfaceByName : String → Option Interface
  /-- Whether `os.MkdirAll(path, perm)` succeeds. -/
  MkdirAll : String → Nat → Bool
  /-- Whether `ioutil.WriteFile(path, data, perm)` succeeds. -/
  WriteFile : String → String → Nat → Bool

/-- The state `checkResolvConf` acts on. -/
structure State where
  /-- The package variable `resolvConfPath`. -/
  resolvConfPath : String
  /-- The successful calls of `os.MkdirAll`: path and permission bits. -/
  dirs : List (String × Nat)
  /-- The successful calls of `ioutil.WriteFile`: path, content, permission
  bits. -/
  files : List (String × String × Nat)
  deriving DecidableEq, Repr

/-- The state at program start: the variable holds the empty string. -/
def State.initial : State := { resolvConfPath := "", dirs := [], files := [] }

/-- How a run of `checkResolvConf` ends. -/
inductive Outcome where
  | returned
  | panicked
  deriving DecidableEq, Repr

/-- The Go function `getResolvConfPath`. -/
def getResolvConfPath (st : State) : String := st.resolvConfPath

/-- The Go function `checkResolvConf`. The parameter `networkBridgeIface` is the
package constant of that name, declared in another file. Compiling the constant
pattern cannot fail, so that `panic` is not reachable. -/
def checkResolvConf (networkBridgeIface : String) (host : Host) (st : State) :
    Outcome × State :=
  match host.ReadFile "/etc/resolv.conf" with
  | none => (.panicked, st)
  | some content =>
    match host.InterfaceByName networkBridgeIface with
    | none => (.panicked, st)
    | some i =>
      match i.Addrs with
      | none => (.panicked, st)
      | some [] => (.panicked, st)
      | some (a0 :: _) =>
        match ParseCIDR a0 with
        | none => (.panicked, st)
        | some (hostIp, _) =>
          let cpy := ReplaceAllLiteral content (IP.String hostIp)
          if cpy ≠ content then
            if host.MkdirAll "/var/lib/docker" 0o700 = false then (.panicked, st)
            else
              let st1 := { st with dirs := ("/var/lib/docker", 0o700) :: st.dirs }
              if host.WriteFile "/var/lib/docker/resolv.conf" cpy 0o644 = false then
                (.panicked, st1)
              else
                (.returned,
                  { st1 with
                    files := ("/var/lib/docker/resolv.conf", cpy, 0o644) :: st1.files
                    resolvConfPath := "/var/lib/docker/resolv.conf" })
          else (.returned, { st with resolvConfPath := "/etc/resolv.conf" })

/-! ## Concrete inputs -/

/-- A configuration whose memory limit is `2 ^ 62` bytes. -/
def hugeMemoryConfig : Config := { Hostname := "", Memory := 2 ^ 62, MemorySwap := 0 }

/-- A configuration with a memory limit of 100 bytes and the default swap. -/
def smallMemoryConfig : Config := { Hostname := "", Memory := 100, MemorySwap := 0 }

/-- The host of the reconciliation example: resolver content
`nameserver 127.0.1.1`, bridge `lxcbr0` with the one address `10.0.3.1/24`,
and a file system that accepts every call. -/
def exampleHost : Host where
  ReadFile := fun p => if p = "/etc/resolv.conf" then some "nameserver 127.0.1.1" else none
  InterfaceByName := fun n => if n = "lxcbr0" then some ⟨some ["10.0.3.1/24"]⟩ else none
  MkdirAll := fun _ _ => true
  WriteFile := fun _ _ _ => true

/-- A host whose only name server is the private address `192.168.127.10`;
bridge and file system as in `exampleHost`. -/
def privateResolverHost : Host where
  ReadFile := fun p =>
    if p = "/etc/resolv.conf" then some "nameserver 192.168.127.10\n" else none
  InterfaceByName := fun n => if n = "lxcbr0" then some ⟨some ["10.0.3.1/24"]⟩ else none
  MkdirAll := fun _ _ => true
  WriteFile := fun _ _ _ => true

/-- A host whose resolver file names no `127` text and whose bridge
`lxcbr0` has the address `10.0.3.1/24`. -/
def cleanResolverHost : Host where
  ReadFile := fun p => if p = "/etc/resolv.conf" then some "nameserver 8.8.8.8\n" else none
  InterfaceByName := fun n => if n = "lxcbr0" then some ⟨some ["10.0.3.1/24"]⟩ else none
  MkdirAll := fun _ _ => true
  WriteFile := fun _ _ _ => true

/-- A host with a readable resolver file and no bridge interface. -/
def noBridgeHost : Host where
  ReadFile := fun p => if p = "/etc/resolv.conf" then some "nameserver 8.8.8.8\n" else none
  InterfaceByName := fun _ => none
  MkdirAll := fun _ _ => true
  WriteFile := fun _ _ _ => true

/-- The whitespace-separated fields of a text; `cur` holds the characters of
the current field in reverse. -/
def fieldsAux : List Char → List Char → List (List Char)
  | [], cur => [cur.reverse]
  | c :: s, cur =>
    if c.isWhitespace then cur.reverse :: fieldsAux s [] else fieldsAux s (c :: cur)

/-- The reading of "contains a loopback-family (127.0.0.0/8) address entry"
used to test C4: some whitespace-separated field of the content is a dotted
IPv4 address whose first octet is 127. -/
def hasLoopbackEntry (content : String) : Bool :=
  (fieldsAux content.data []).any fun field =>
    match parseIPv4 field with
    | some ip => (ip.drop 12).head? == some 127
    | none => false


/-- The state after the run on `exampleHost` from the initial state. -/
def exampleFinalState : State where
  resolvConfPath := "/var/lib/docker/resolv.conf"
  dirs := [("/var/lib/docker", 0o700)]
  files := [("/var/lib/docker/resolv.conf", "nameserver 10.0.3.1", 0o644)]


/-- The failures C10 lists, in the words of the claim: the resolver file cannot
be read, the bridge lookup fails, the address listing fails or is empty, the
first address does not parse as CIDR, or the substituted content differs and
the directory creation or the file write fails. -/
def FatalCondition (iface : String) (host : Host) : Prop :=
  host.ReadFile "/etc/resolv.conf" = none ∨
  host.InterfaceByName iface = none ∨
  (∃ i, host.InterfaceByName iface = some i ∧ (i.Addrs = none ∨ i.Addrs = some [])) ∨
  (∃ i a0 rest, host.InterfaceByName iface = some i ∧ i.Addrs = some (a0 :: rest) ∧
    ParseCIDR a0 = none) ∨
  (∃ content i a0 rest hostIp network,
    host.ReadFile "/etc/resolv.conf" = some content ∧
    host.InterfaceByName iface = some i ∧ i.Addrs = some (a0 :: rest) ∧
    ParseCIDR a0 = some (hostIp, network) ∧
    ReplaceAllLiteral content (IP.String hostIp) ≠ content ∧
    (host.MkdirAll "/var/lib/docker" 0o700 = false ∨
      host.WriteFile "/var/lib/docker/resolv.conf"
        (ReplaceAllLiteral content (IP.String hostIp)) 0o644 = false))


/-! ## Reading the rendered text -/

/-- The text `needle` occurs in `text`. -/
def Occurs (needle text : String) : Prop := needle.data <:+: text.data

instance (needle text : String) : Decidable (Occurs needle text) := by
  unfold Occurs; infer_instance

/-- The text `line` is a whole line of `text`, between two newlines. -/
def HasLine (line text : String) : Prop := Occurs ("\n" ++ line ++ "\n") text

instance (line text : String) : Decidable (HasLine line text) := by
  unfold HasLine; infer_instance

/-- The texts `ps` occur in `t` in this order, each one entirely before the
next. -/
def OrderedIn : List String → List Char → Prop
  | [], _ => True
  | p :: ps, t => ∃ pre rest, t = pre ++ (p.data ++ rest) ∧ OrderedIn ps rest

/-- What follows the first occurrence of `p` in a text, `none` when `p` does
not occur. -/
def findAfter (p : List Char) : List Char → Option (List Char)
  | [] => if p.isEmpty then some [] else none
  | c :: t => if p.isPrefixOf (c :: t) then some ((c :: t).drop p.length) else findAfter p t

/-- The left-to-right search that decides `OrderedIn`. -/
def orderedInB : List String → List Char → Bool
  | [], _ => true
  | p :: ps, t =>
    match findAfter p.data t with
    | none => false
    | some r => orderedInB ps r

/-- The texts `ds` written one after the other, each after its gap text. -/
def weave : List String → List String → String
  | _, [] => ""
  | [], d :: ds => d ++ weave [] ds
  | gap :: gaps, d :: ds => gap ++ d ++ weave gaps ds

/-! ## The directives the claims name -/

/-- The hostname directive of the spec: the hostname if it is not empty, the
container id otherwise. -/
def hostnameDirective (c : Container) : String :=
  "lxc.utsname = " ++ (if c.Config.Hostname = "" then c.Id else c.Config.Hostname)

/-- The network directives. -/
def networkDirectives (c : Container) : List String :=
  ["lxc.network.type = veth",
   "lxc.network.flags = up",
   "lxc.network.link = lxcbr0",
   "lxc.network.name = eth0",
   "lxc.network.mtu = 1500",
   "lxc.network.ipv4 = " ++ c.NetworkSettings.IpAddress ++ "/" ++
     printInt c.NetworkSettings.IpPrefixLen]

/-- The root filesystem directive. -/
def rootfsDirective (c : Container) : String := "lxc.rootfs = " ++ c.Mountpoint.Root

/-- The static pts, console, tty and device-access directives. -/
def consoleDeviceDirectives : List String :=
  ["lxc.pts = 1024",
   "lxc.console = none",
   "lxc.tty = 1",
   "lxc.cgroup.devices.deny = a",
   "lxc.cgroup.devices.allow = c 1:3 rwm",
   "lxc.cgroup.devices.allow = c 1:5 rwm",
   "lxc.cgroup.devices.allow = c 5:1 rwm",
   "lxc.cgroup.devices.allow = c 5:0 rwm",
   "lxc.cgroup.devices.allow = c 4:0 rwm",
   "lxc.cgroup.devices.allow = c 4:1 rwm",
   "lxc.cgroup.devices.allow = c 1:9 rwm",
   "lxc.cgroup.devices.allow = c 1:8 rwm",
   "lxc.cgroup.devices.allow = c 136:* rwm",
   "lxc.cgroup.devices.allow = c 5:2 rwm",
   "lxc.cgroup.devices.allow = c 10:200 rwm"]

/-- The standard mount entries: proc, sysfs, devpts, the init binary and the
resolver file. -/
def mountEntries (c : Container) (resolvConfPath : String) : List String :=
  ["lxc.mount.entry = proc " ++ c.Mountpoint.Root ++ "/proc proc nosuid,nodev,noexec 0 0",
   "lxc.mount.entry = sysfs " ++ c.Mountpoint.Root ++ "/sys sysfs nosuid,nodev,noexec 0 0",
   "lxc.mount.entry = devpts " ++ c.Mountpoint.Root ++
     "/dev/pts devpts newinstance,ptmxmode=0666,nosuid,noexec 0 0",
   "lxc.mount.entry = " ++ c.SysInitPath ++ " " ++ c.Mountpoint.Root ++
     "/sbin/init none bind,ro 0 0",
   "lxc.mount.entry =" ++ resolvConfPath ++ " " ++ c.Mountpoint.Root ++
     "/etc/resolv.conf none bind,ro 0 0"]

/-- The capability-drop directive. -/
def capDropDirective : String :=
  "lxc.cap.drop = audit_control audit_write mac_admin mac_override mknod setfcap setpcap sys_admin sys_boot sys_module sys_nice sys_pacct sys_rawio sys_resource sys_time sys_tty_config"

/-- The memory limit directive with value `m`. -/
def limitDirective (m : Int) : String := "lxc.cgroup.memory.limit_in_bytes = " ++ printInt m

/-- The memory soft-limit directive with value `m`. -/
def softLimitDirective (m : Int) : String :=
  "lxc.cgroup.memory.soft_limit_in_bytes = " ++ printInt m

/-- The swap-limit directive with value `s`. -/
def swapLimitDirective (s : Int) : String :=
  "lxc.cgroup.memory.memsw.limit_in_bytes = " ++ printInt s

/-- The text the `with` action of the template writes. -/
def swapPart (c : Container) : String :=
  if getMemorySwap c.Config ≠ 0 then
    "\n" ++ swapLimitDirective (getMemorySwap c.Config) ++ "\n"
  else ""

/-- The directives of the memory-limit block, in the order written. -/
def memoryBlock (c : Container) : List String :=
  if c.Config.Memory ≠ 0 then
    limitDirective c.Config.Memory :: softLimitDirective c.Config.Memory ::
      (if getMemorySwap c.Config ≠ 0 then [swapLimitDirective (getMemorySwap c.Config)] else [])
  else []

/-- The order of the sections as C9 states it. -/
def claimedOrder (c : Container) (resolvConfPath : String) : List String :=
  [hostnameDirective c] ++ consoleDeviceDirectives ++ networkDirectives c ++
    [rootfsDirective c] ++ mountEntries c resolvConfPath ++ [capDropDirective] ++ memoryBlock c

/-- The order of the sections in the template. -/
def templateOrder (c : Container) (resolvConfPath : String) : List String :=
  [hostnameDirective c] ++ networkDirectives c ++ [rootfsDirective c] ++
    consoleDeviceDirectives ++ mountEntries c resolvConfPath ++ [capDropDirective] ++
    memoryBlock c

/-- A container with host name `web1`, 512 bytes of memory and the default
swap. -/
def exampleContainer : Container where
  Id := "abc123"
  Config := { Hostname := "web1", Memory := 512, MemorySwap := 0 }
  NetworkSettings := { IpAddress := "10.0.3.7", IpPrefixLen := 24 }
  Mountpoint := { Root := "/var/lib/docker/containers/abc123/rootfs" }
  SysInitPath := "/usr/bin/docker"

/-- A container without host name and without memory limit. -/
def unlimitedContainer : Container :=
  { exampleContainer with Config := { Hostname := "", Memory := 0, MemorySwap := 0 } }

/-- A container whose memory limit is the negative number `-1`. -/
def negativeMemoryContainer : Container :=
  { exampleContainer with Config := { Hostname := "web1", Memory := -1, MemorySwap := 0 } }


/-! ## Start-up and the steps after it -/

/-- The call `LxcTemplateCompiled.Execute(w, container)` of the compiled
template, with the template functions `getMemorySwap` and `getResolvConfPath`
bound as in `init`: the text written to `w` and the state after the call. -/
def LxcTemplateCompiled.Execute (c : Container) (st : State) : String × State :=
  (LxcTemplate c (getResolvConfPath st), st)

/-- The Go function `init`. `SelfPath` (the value of the call `SelfPath()`) and
`SysInit` are declared in other files and taken as parameters. Parsing the
constant template `LxcTemplate` cannot fail, so that `panic` is not
reachable. -/
def init (SelfPath : String) (SysInit : State → Outcome × State)
    (networkBridgeIface : String) (host : Host) (st : State) : Outcome × State :=
  if SelfPath = "/sbin/init" then SysInit st
  else checkResolvConf networkBridgeIface host st

/-- The values `checkResolvConf` assigns to the variable `resolvConfPath`, in
the order of the assignments: the run reaches one of the two assignment
statements when it does not panic, and none when it does. -/
def checkResolvConfAssignments (networkBridgeIface : String) (host : Host) : List String :=
  match host.ReadFile "/etc/resolv.conf" with
  | none => []
  | some content =>
    match host.InterfaceByName networkBridgeIface with
    | none => []
    | some i =>
      match i.Addrs with
      | none => []
      | some [] => []
      | some (a0 :: _) =>
        match ParseCIDR a0 with
        | none => []
        | some (hostIp, _) =>
          let cpy := ReplaceAllLiteral content (IP.String hostIp)
          if cpy ≠ content then
            if host.MkdirAll "/var/lib/docker" 0o700 = false then []
            else if host.WriteFile "/var/lib/docker/resolv.conf" cpy 0o644 = false then []
            else ["/var/lib/docker/resolv.conf"]
          else ["/etc/resolv.conf"]

/-- A step of the program after start-up that touches the resolved path: a call
of `getResolvConfPath`, or the rendering of a container. -/
inductive Step where
  | getResolvConfPath
  | render (c : Container)

/-- One step: its result and the state after it. -/
def Step.run : Step → State → String × State
  | .getResolvConfPath, st => (Docker.getResolvConfPath st, st)
  | .render c, st => LxcTemplateCompiled.Execute c st

/-- A sequence of steps: the results in order and the state after the last
step. -/
def runSteps : List Step → State → List String × State
  | [], st => ([], st)
  | s :: rest, st =>
    ((s.run st).1 :: (runSteps rest (s.run st).2).1, (runSteps rest (s.run st).2).2)

/-- The resolved path has not been set: the variable holds its zero value. -/
def Unresolved (st : State) : Prop := st.resolvConfPath = ""

/-- The resolved path is one of the two paths `checkResolvConf` assigns. -/
def Resolved (st : State) : Prop :=
  st.resolvConfPath = "/etc/resolv.conf" ∨ st.resolvConfPath = "/var/lib/docker/resolv.conf"

/-! ## Reading the pattern -/

/-- The first `n` characters of `s` exist and none of them is a newline. -/
def noNewlineAt : Nat → List Char → Bool
  | 0, _ => true
  | _ + 1, [] => false
  | n + 1, c :: s => c ≠ '\n' && noNewlineAt n s

/-- The text holds `127` immediately followed by three characters none of
which is a newline. -/
def Has127Run (s : List Char) : Prop :=
  ∃ pre x y z post, s = pre ++ '1' :: '2' :: '7' :: x :: y :: z :: post ∧
    x ≠ '\n' ∧ y ≠ '\n' ∧ z ≠ '\n'

/-- A host with the given resolver content, the bridge `lxcbr0` with the given
address texts, and a file system that accepts every call. -/
def bridgeHost (content : String) (addrs : List String) : Host where
  ReadFile := fun p => if p = "/etc/resolv.conf" then some content else none
  InterfaceByName := fun n => if n = "lxcbr0" then some ⟨some addrs⟩ else none
  MkdirAll := fun _ _ => true
  WriteFile := fun _ _ _ => true

/-- The example container with a memory limit of `2 ^ 62` bytes. -/
def hugeMemoryContainer : Container :=
  { exampleContainer with Config := { Hostname := "web1", Memory := 2 ^ 62, MemorySwap := 0 } }


/-! ## The template as `text/template` runs it

The parsed template is a tree of text and actions. Executing it walks the tree
with a current value (the dot), the declared variables and the program state;
a template function is an arbitrary operation on the operating system and the
program state, so that what a function reads or writes shows in the result. -/

/-- A value during the execution of a template. -/
inductive Value where
  | str (s : String)
  | int (n : Int)
  | container (c : Container)
  | config (c : Config)
  | networkSettings (n : NetworkSettings)
  | mountpoint (m : Mountpoint)
  deriving DecidableEq, Repr

/-- The field `name` of a value, `none` when the value has no such field. -/
def Value.field (name : String) : Value → Option Value
  | .container c =>
    if name = "Id" then some (.str c.Id)
    else if name = "Config" then some (.config c.Config)
    else if name = "NetworkSettings" then some (.networkSettings c.NetworkSettings)
    else if name = "Mountpoint" then some (.mountpoint c.Mountpoint)
    else if name = "SysInitPath" then some (.str c.SysInitPath)
    else none
  | .config c =>
    if name = "Hostname" then some (.str c.Hostname)
    else if name = "Memory" then some (.int c.Memory)
    else if name = "MemorySwap" then some (.int c.MemorySwap)
    else none
  | .networkSettings n =>
    if name = "IpAddress" then some (.str n.IpAddress)
    else if name = "IpPrefixLen" then some (.int n.IpPrefixLen)
    else none
  | .mountpoint m => if name = "Root" then some (.str m.Root) else none
  | _ => none

/-- A chain of fields such as `.Config.Hostname`, from the value `v`. -/
def Value.chain : List String → Value → Option Value
  | [], v => some v
  | name :: rest, v =>
    match v.field name with
    | some w => Value.chain rest w
    | none => none

/-- The truth of a value in `if` and `with`: a string is true when it is not
empty, an integer when it is not zero, a struct pointer when it is set. -/
def Value.isTrue : Value → Bool
  | .str s => s ≠ ""
  | .int n => n ≠ 0
  | _ => true

/-- The text a printed value adds to the output; the template prints strings
and integers only. -/
def Value.print : Value → Option String
  | .str s => some s
  | .int n => some (printInt n)
  | _ => none

/-- A template function: from the operating system, the program state and the
arguments to a value and the state after the call, `none` for an error. -/
abbrev TemplateFunc := Host → State → List Value → Option (Value × State)

/-- The functions bound to a template by name (`template.FuncMap`). -/
abbrev FuncMap := String → Option TemplateFunc

/-- The pipelines of the template: a field chain of the dot, a variable, or a
function called on field chains of the dot. -/
inductive Pipeline where
  | field (chain : List String)
  | var (name : String)
  | call (fn : String) (args : List (List String))
  deriving DecidableEq, Repr

/-- A parsed template: text, `print` for a printing action, `declare` for
`$x := pipeline`, `ifElse` and `withVar` (`with $x := pipeline`), each followed
by the rest of the template. -/
inductive Tmpl where
  | done
  | text (s : String) (rest : Tmpl)
  | print (p : Pipeline) (rest : Tmpl)
  | declare (name : String) (p : Pipeline) (rest : Tmpl)
  | ifElse (p : Pipeline) (thenBranch elseBranch : Tmpl) (rest : Tmpl)
  | withVar (name : String) (p : Pipeline) (body : Tmpl) (rest : Tmpl)
  deriving Repr

/-- The values of the argument chains, `none` when one has no value. -/
def evalArgs (dot : Value) : List (List String) → Option (List Value)
  | [] => some []
  | a :: rest =>
    match Value.chain a dot, evalArgs dot rest with
    | some v, some vs => some (v :: vs)
    | _, _ => none

/-- The value of a pipeline and the state after evaluating it. -/
def Pipeline.eval (fm : FuncMap) (host : Host) (dot : Value) (vars : List (String × Value))
    (st : State) : Pipeline → Option (Value × State)
  | .field chain => (Value.chain chain dot).map fun v => (v, st)
  | .var name => (vars.lookup name).map fun v => (v, st)
  | .call fn args =>
    match fm fn, evalArgs dot args with
    | some f, some vs => f host st vs
    | _, _ => none

/-- Execution of a template: the text written and the state after it, `none`
when an action fails. A variable declared in a branch is gone after the
branch, and `with` sets the dot to the value of its pipeline. -/
def Tmpl.exec (fm : FuncMap) (host : Host) :
    Tmpl → Value → List (String × Value) → State → Option (String × State)
  | .done, _, _, st => some ("", st)
  | .text s rest, dot, vars, st =>
    match rest.exec fm host dot vars st with
    | some (out, st1) => some (s ++ out, st1)
    | none => none
  | .print p rest, dot, vars, st =>
    match p.eval fm host dot vars st with
    | some (v, st1) =>
      match v.print, rest.exec fm host dot vars st1 with
      | some s, some (out, st2) => some (s ++ out, st2)
      | _, _ => none
    | none => none
  | .declare name p rest, dot, vars, st =>
    match p.eval fm host dot vars st with
    | some (v, st1) => rest.exec fm host dot ((name, v) :: vars) st1
    | none => none
  | .ifElse p thenBranch elseBranch rest, dot, vars, st =>
    match p.eval fm host dot vars st with
    | some (v, st1) =>
      match (if v.isTrue then thenBranch.exec fm host dot vars st1
        else elseBranch.exec fm host dot vars st1) with
      | some (out1, st2) =>
        match rest.exec fm host dot vars st2 with
        | some (out2, st3) => some (out1 ++ out2, st3)
        | none => none
      | none => none
    | none => none
  | .withVar name p body rest, dot, vars, st =>
    match p.eval fm host dot vars st with
    | some (v, st1) =>
      match (if v.isTrue then body.exec fm host v ((name, v) :: vars) st1
        else some ("", st1)) with
      | some (out1, st2) =>
        match rest.exec fm host dot vars st2 with
        | some (out2, st3) => some (out1 ++ out2, st3)
        | none => none
      | none => none
    | none => none

/-- The map `funcMap` of `init`: the name `getMemorySwap` bound to the function
`getMemorySwap`, which takes a configuration, and `getResolvConfPath` to the
function `getResolvConfPath`, which takes nothing and returns the variable
`resolvConfPath`. -/
def funcMap : FuncMap := fun name =>
  if name = "getMemorySwap" then
    some fun _ st args =>
      match args with
      | [.config c] => some (.int (getMemorySwap c), st)
      | _ => none
  else if name = "getResolvConfPath" then
    some fun _ st args =>
      match args with
      | [] => some (.str (getResolvConfPath st), st)
      | _ => none
  else none

/-- The parse tree of the constant `LxcTemplate`. -/
def LxcTemplateCompiled.Tree : Tmpl :=
  .text ("\n" ++
    "# hostname\n") <|
  .ifElse (.field ["Config", "Hostname"])
    (
      .text ("\n" ++
        "lxc.utsname = ") <|
      .print (.field ["Config", "Hostname"]) <|
      .text "\n" <|
      .done)
    (
      .text ("\n" ++
        "lxc.utsname = ") <|
      .print (.field ["Id"]) <|
      .text "\n" <|
      .done) <|
  .text ("\n" ++
    "#lxc.aa_profile = unconfined\n" ++
    "\n" ++
    "# network configuration\n" ++
    "lxc.network.type = veth\n" ++
    "lxc.network.flags = up\n" ++
    "lxc.network.link = lxcbr0\n" ++
    "lxc.network.name = eth0\n" ++
    "lxc.network.mtu = 1500\n" ++
    "lxc.network.ipv4 = ") <|
  .print (.field ["NetworkSettings", "IpAddress"]) <|
  .text "/" <|
  .print (.field ["NetworkSettings", "IpPrefixLen"]) <|
  .text ("\n" ++
    "\n" ++
    "# root filesystem\n") <|
  .declare "ROOTFS" (.field ["Mountpoint", "Root"]) <|
  .text ("\n" ++
    "lxc.rootfs = ") <|
  .print (.var "ROOTFS") <|
  .text ("\n" ++
    "\n" ++
    "# use a dedicated pts for the container (and limit the number of pseudo terminal\n" ++
    "# available)\n" ++
    "lxc.pts = 1024\n" ++
    "\n" ++
    "# disable the main console\n" ++
    "lxc.console = none\n" ++
    "\n" ++
    "# no controlling tty at all\n" ++
    "lxc.tty = 1\n" ++
    "\n" ++
    "# no implicit access to devices\n" ++
    "lxc.cgroup.devices.deny = a\n" ++
    "\n" ++
    "# /dev/null and zero\n" ++
    "lxc.cgroup.devices.allow = c 1:3 rwm\n" ++
    "lxc.cgroup.devices.allow = c 1:5 rwm\n" ++
    "\n" ++
    "# consoles\n" ++
    "lxc.cgroup.devices.allow = c 5:1 rwm\n" ++
    "lxc.cgroup.devices.allow = c 5:0 rwm\n" ++
    "lxc.cgroup.devices.allow = c 4:0 rwm\n" ++
    "lxc.cgroup.devices.allow = c 4:1 rwm\n" ++
    "\n" ++
    "# /dev/urandom,/dev/random\n" ++
    "lxc.cgroup.devices.allow = c 1:9 rwm\n" ++
    "lxc.cgroup.devices.allow = c 1:8 rwm\n" ++
    "\n" ++
    "# /dev/pts/* - pts namespaces are \x22coming soon\x22\n" ++
    "lxc.cgroup.devices.allow = c 136:* rwm\n" ++
    "lxc.cgroup.devices.allow = c 5:2 rwm\n" ++
    "\n" ++
    "# tuntap\n" ++
    "lxc.cgroup.devices.allow = c 10:200 rwm\n" ++
    "\n" ++
    "# fuse\n" ++
    "#lxc.cgroup.devices.allow = c 10:229 rwm\n" ++
    "\n" ++
    "# rtc\n" ++
    "#lxc.cgroup.devices.allow = c 254:0 rwm\n" ++
    "\n" ++
    "\n" ++
    "# standard mount point\n" ++
    "lxc.mount.entry = proc ") <|
  .print (.var "ROOTFS") <|
  .text ("/proc proc nosuid,nodev,noexec 0 0\n" ++
    "lxc.mount.entry = sysfs ") <|
  .print (.var "ROOTFS") <|
  .text ("/sys sysfs nosuid,nodev,noexec 0 0\n" ++
    "lxc.mount.entry = devpts ") <|
  .print (.var "ROOTFS") <|
  .text ("/dev/pts devpts newinstance,ptmxmode=0666,nosuid,noexec 0 0\n" ++
    "#lxc.mount.entry = varrun ") <|
  .print (.var "ROOTFS") <|
  .text ("/var/run tmpfs mode=755,size=4096k,nosuid,nodev,noexec 0 0\n" ++
    "#lxc.mount.entry = varlock ") <|
  .print (.var "ROOTFS") <|
  .text ("/var/lock tmpfs size=1024k,nosuid,nodev,noexec 0 0\n" ++
    "#lxc.mount.entry = shm ") <|
  .print (.var "ROOTFS") <|
  .text ("/dev/shm tmpfs size=65536k,nosuid,nodev,noexec 0 0\n" ++
    "\n" ++
    "# Inject docker-init\n" ++
    "lxc.mount.entry = ") <|
  .print (.field ["SysInitPath"]) <|
  .text " " <|
  .print (.var "ROOTFS") <|
  .text ("/sbin/init none bind,ro 0 0\n" ++
    "\n" ++
    "# In order to get a working DNS environment, mount bind (ro) the host\x27s /etc/resolv.conf into the container\n") <|
  .declare "resolvConfOrig" (.call "getResolvConfPath" []) <|
  .text ("\n" ++
    "lxc.mount.entry =") <|
  .print (.var "resolvConfOrig") <|
  .text " " <|
  .print (.var "ROOTFS") <|
  .text ("/etc/resolv.conf none bind,ro 0 0\n" ++
    "\n" ++
    "# drop linux capabilities (apply mainly to the user root in the container)\n" ++
    "lxc.cap.drop = audit_control audit_write mac_admin mac_override mknod setfcap setpcap sys_admin sys_boot sys_module sys_nice sys_pacct sys_rawio sys_resource sys_time sys_tty_config\n" ++
    "\n" ++
    "# limits\n") <|
  .ifElse (.field ["Config", "Memory"])
    (
      .text ("\n" ++
        "lxc.cgroup.memory.limit_in_bytes = ") <|
      .print (.field ["Config", "Memory"]) <|
      .text ("\n" ++
        "lxc.cgroup.memory.soft_limit_in_bytes = ") <|
      .print (.field ["Config", "Memory"]) <|
      .text "\n" <|
      .withVar "memSwap" (.call "getMemorySwap" [["Config"]])
        (
          .text ("\n" ++
            "lxc.cgroup.memory.memsw.limit_in_bytes = ") <|
          .print (.var "memSwap") <|
          .text "\n" <|
          .done) <|
      .text "\n" <|
      .done)
    (
      .done) <|
  .text "\n" <|
  .done

/-- The call `LxcTemplateCompiled.Execute(w, container)` as `text/template`
runs it: the tree executed with the functions of `funcMap`, the container as
the dot and no variable. -/
def LxcTemplateCompiled.ExecuteTree (host : Host) (c : Container) (st : State) :
    Option (String × State) :=
  LxcTemplateCompiled.Tree.exec funcMap host (.container c) [] st

/-- A map that binds the name `getResolvConfPath` to another function, one
that returns the content of the host's resolver file and records a directory.
It is not the map of the program: it shows what execution does with a function
that reads the operating system and writes the state. -/
def intrusiveFuncMap : FuncMap := fun name =>
  if name = "getResolvConfPath" then
    some fun host st _ =>
      some (.str ((host.ReadFile "/etc/resolv.conf").getD ""),
        { st with dirs := ("/tmp", 0o700) :: st.dirs })
  else funcMap name

/-! # Theorems -/

/-! ## `getMemorySwap` -/

/-- C1, as stated, fails: for the well-formed configuration with
`Memory = 2 ^ 62` and `MemorySwap = 0` the `int64` product wraps, and
`getMemorySwap` returns `-2 ^ 63`, not `2 × Memory = 2 ^ 63`. -/
theorem getMemorySwap_not_always_double :
    hugeMemoryConfig.WellFormed ∧ ¬ hugeMemoryConfig.MemorySwap < 0 ∧
      getMemorySwap hugeMemoryConfig = -(2 : Int) ^ 63 ∧
      getMemorySwap hugeMemoryConfig ≠ 2 * hugeMemoryConfig.Memory := by
  decide

/-- C1, amended: when `-2 ^ 62 ≤ Memory < 2 ^ 62`, `getMemorySwap` returns 0 if
`MemorySwap < 0` and `2 × Memory` otherwise; `(Memory, MemorySwap) = (100, 0)`
gives 200 and `(100, -1)` gives 0. -/
theorem getMemorySwap_double_in_range (c : Config)
    (hlo : -(2 : Int) ^ 62 ≤ c.Memory) (hhi : c.Memory < (2 : Int) ^ 62) :
    getMemorySwap c = (if c.MemorySwap < 0 then 0 else 2 * c.Memory) ∧
      getMemorySwap { c with Memory := 100, MemorySwap := 0 } = 200 ∧
      getMemorySwap { c with Memory := 100, MemorySwap := -1 } = 0 := by
  refine ⟨?_, ?_, ?_⟩
  · unfold getMemorySwap wrapInt64
    split
    · rfl
    · omega
  · simp [getMemorySwap, wrapInt64]
  · simp [getMemorySwap]

/-- Witness of `getMemorySwap_double_in_range` at `Memory = 100`,
`MemorySwap = 0`. -/
theorem getMemorySwap_double_in_range_witness :
    getMemorySwap smallMemoryConfig = 200 :=
  (getMemorySwap_double_in_range smallMemoryConfig (by decide) (by decide)).1

/-! ## `checkResolvConf` -/

/-- Without a match the scan copies its input. -/
theorem replaceFrom_of_no_match (repl : List Char) :
    ∀ s : List Char, hasMatch s = false → replaceFrom repl 0 s = s
  | [], _ => rfl
  | c :: s, h => by
    simp only [hasMatch, Bool.or_eq_false_iff] at h
    have h1 : matchAt (c :: s) = none := by
      cases hm : matchAt (c :: s) with
      | none => rfl
      | some n => simp [hm] at h
    simp only [replaceFrom, h1]
    rw [replaceFrom_of_no_match repl s h.2]

/-- A text without a match is its own `ReplaceAllLiteral`. -/
theorem ReplaceAllLiteral_of_no_match (src repl : String)
    (h : hasMatch src.data = false) : ReplaceAllLiteral src repl = src := by
  unfold ReplaceAllLiteral
  rw [replaceFrom_of_no_match _ _ h]

/-- The run of `checkResolvConf` once the resolver file was read and the first
bridge address parsed: the branch on the substituted content. -/
theorem checkResolvConf_of_parsed (iface : String) (host : Host) (st : State)
    (content : String) (i : Interface) (a0 : String) (rest : List String)
    (hostIp network : IP)
    (hread : host.ReadFile "/etc/resolv.conf" = some content)
    (hif : host.InterfaceByName iface = some i)
    (haddrs : i.Addrs = some (a0 :: rest))
    (hparse : ParseCIDR a0 = some (hostIp, network)) :
    checkResolvConf iface host st =
      (let cpy := ReplaceAllLiteral content (IP.String hostIp)
       if cpy ≠ content then
         if host.MkdirAll "/var/lib/docker" 0o700 = false then (.panicked, st)
         else if host.WriteFile "/var/lib/docker/resolv.conf" cpy 0o644 = false then
           (.panicked, { st with dirs := ("/var/lib/docker", 0o700) :: st.dirs })
         else
           (.returned,
             { resolvConfPath := "/var/lib/docker/resolv.conf"
               dirs := ("/var/lib/docker", 0o700) :: st.dirs
               files := ("/var/lib/docker/resolv.conf", cpy, 0o644) :: st.files })
       else (.returned, { st with resolvConfPath := "/etc/resolv.conf" })) := by
  unfold checkResolvConf
  simp only [hread, hif, haddrs, hparse]

/-- C2, as stated, fails: with host content `nameserver 127.0.1.1` and bridge
address `10.0.3.1/24` the run writes `nameserver 10.0.3.1`, the address
itself, whereas the network address of `10.0.3.1/24` is `10.0.3.0` and the
claimed content `nameserver 10.0.3.0` is another text. -/
theorem checkResolvConf_persists_not_network_address :
    checkResolvConf "lxcbr0" exampleHost State.initial =
      (.returned,
        { resolvConfPath := "/var/lib/docker/resolv.conf"
          dirs := [("/var/lib/docker", 0o700)]
          files := [("/var/lib/docker/resolv.conf", "nameserver 10.0.3.1", 0o644)] }) ∧
    (ParseCIDR "10.0.3.1/24").map (fun r => (IP.String r.1, IP.String r.2)) =
      some ("10.0.3.1", "10.0.3.0") ∧
    ReplaceAllLiteral "nameserver 127.0.1.1" "10.0.3.0" = "nameserver 10.0.3.0" ∧
    "nameserver 10.0.3.1" ≠ "nameserver 10.0.3.0" := by
  decide

/-- C2, amended: when the resolver file is read and the first bridge address
parses as CIDR into the address `hostIp` and its network, every file the run
adds is `/var/lib/docker/resolv.conf` holding the host content with every
pattern match replaced by the text of `hostIp` (the address itself, host bits
kept), and that file is added whenever the substitution changes the content and
the directory and file calls succeed; for `nameserver 127.0.1.1` and
`10.0.3.1/24` the content written is `nameserver 10.0.3.1`. -/
theorem checkResolvConf_persists_host_address (iface : String) (host : Host) (st : State)
    (content : String) (i : Interface) (a0 : String) (rest : List String)
    (hostIp network : IP)
    (hread : host.ReadFile "/etc/resolv.conf" = some content)
    (hif : host.InterfaceByName iface = some i)
    (haddrs : i.Addrs = some (a0 :: rest))
    (hparse : ParseCIDR a0 = some (hostIp, network)) :
    (∀ f ∈ (checkResolvConf iface host st).2.files,
        f ∈ st.files ∨
        f = ("/var/lib/docker/resolv.conf",
              ReplaceAllLiteral content (IP.String hostIp), 0o644)) ∧
    (ReplaceAllLiteral content (IP.String hostIp) ≠ content →
      host.MkdirAll "/var/lib/docker" 0o700 = true →
      host.WriteFile "/var/lib/docker/resolv.conf"
        (ReplaceAllLiteral content (IP.String hostIp)) 0o644 = true →
      (checkResolvConf iface host st).2.files =
        ("/var/lib/docker/resolv.conf",
          ReplaceAllLiteral content (IP.String hostIp), 0o644) :: st.files) ∧
    (checkResolvConf "lxcbr0" exampleHost State.initial).2.files =
      [("/var/lib/docker/resolv.conf", "nameserver 10.0.3.1", 0o644)] := by
  rw [checkResolvConf_of_parsed iface host st content i a0 rest hostIp network
    hread hif haddrs hparse]
  refine ⟨?_, ?_, by decide⟩
  · intro f hf
    dsimp only at hf
    split_ifs at hf with h1 h2 h3
    · exact Or.inl hf
    · exact Or.inl hf
    · rcases List.mem_cons.mp hf with hf | hf
      · exact Or.inr hf
      · exact Or.inl hf
    · exact Or.inl hf
  · intro hne hm hw
    simp [hne, hm, hw]

/-- Witness of `checkResolvConf_persists_host_address` on the example host. -/
theorem checkResolvConf_persists_host_address_witness :
    exampleHost.ReadFile "/etc/resolv.conf" = some "nameserver 127.0.1.1" ∧
    ParseCIDR "10.0.3.1/24" = some (IPv4 10 0 3 1, [10, 0, 3, 0]) ∧
    (checkResolvConf "lxcbr0" exampleHost State.initial).2.files =
      [("/var/lib/docker/resolv.conf", "nameserver 10.0.3.1", 0o644)] :=
  ⟨by decide, by decide,
    (checkResolvConf_persists_host_address "lxcbr0" exampleHost State.initial
      "nameserver 127.0.1.1" ⟨some ["10.0.3.1/24"]⟩ "10.0.3.1/24" []
      (IPv4 10 0 3 1) [10, 0, 3, 0] (by decide) (by decide) rfl (by decide)).2.2⟩

/-- C3: when `checkResolvConf` returns, the resolver file was read and the
first bridge address parsed into an address `hostIp`; if replacing every
pattern match with the text of `hostIp` changes the content, the run has
called `MkdirAll` on `/var/lib/docker` with mode 0700, written the substituted
content to `/var/lib/docker/resolv.conf` with mode 0644 and set the resolved
path to that file; otherwise it has set the resolved path to
`/etc/resolv.conf` and created no directory and no file. -/
theorem checkResolvConf_returned (iface : String) (host : Host) (st out : State)
    (h : checkResolvConf iface host st = (.returned, out)) :
    ∃ content i a0 rest hostIp network,
      host.ReadFile "/etc/resolv.conf" = some content ∧
      host.InterfaceByName iface = some i ∧ i.Addrs = some (a0 :: rest) ∧
      ParseCIDR a0 = some (hostIp, network) ∧
      (ReplaceAllLiteral content (IP.String hostIp) ≠ content →
        out = { resolvConfPath := "/var/lib/docker/resolv.conf"
                dirs := ("/var/lib/docker", 0o700) :: st.dirs
                files := ("/var/lib/docker/resolv.conf",
                  ReplaceAllLiteral content (IP.String hostIp), 0o644) :: st.files }) ∧
      (ReplaceAllLiteral content (IP.String hostIp) = content →
        out = { resolvConfPath := "/etc/resolv.conf", dirs := st.dirs, files := st.files }) := by
  unfold checkResolvConf at h
  split at h
  · simp at h
  · rename_i content hc
    split at h
    · simp at h
    · rename_i i hi
      split at h
      · simp at h
      · simp at h
      · rename_i a0 rest ha
        split at h
        · simp at h
        · rename_i hostIp network hp
          refine ⟨content, i, a0, rest, hostIp, network, hc, hi, ha, hp, ?_, ?_⟩
          · intro hne
            simp only [hne, ne_eq, not_false_eq_true, if_true] at h
            split at h
            · simp at h
            · split at h
              · simp at h
              · simp at h
                exact h.symm
          · intro heq
            simp [heq] at h
            exact h.symm

/-- Witness of `checkResolvConf_returned`: the run on the example host
returns. -/
theorem checkResolvConf_returned_witness :
    checkResolvConf "lxcbr0" exampleHost State.initial = (.returned, exampleFinalState) ∧
    ∃ content i a0 rest hostIp network,
      exampleHost.ReadFile "/etc/resolv.conf" = some content ∧
      exampleHost.InterfaceByName "lxcbr0" = some i ∧ i.Addrs = some (a0 :: rest) ∧
      ParseCIDR a0 = some (hostIp, network) ∧
      (ReplaceAllLiteral content (IP.String hostIp) ≠ content →
        exampleFinalState =
          { resolvConfPath := "/var/lib/docker/resolv.conf"
            dirs := ("/var/lib/docker", 0o700) :: State.initial.dirs
            files := ("/var/lib/docker/resolv.conf",
              ReplaceAllLiteral content (IP.String hostIp), 0o644) :: State.initial.files }) ∧
      (ReplaceAllLiteral content (IP.String hostIp) = content →
        exampleFinalState =
          { resolvConfPath := "/etc/resolv.conf", dirs := State.initial.dirs,
            files := State.initial.files }) :=
  ⟨by decide,
    checkResolvConf_returned "lxcbr0" exampleHost State.initial exampleFinalState (by decide)⟩

/-- C4, as stated, fails: the content `nameserver 192.168.127.10` holds no
loopback-family address (its only address field has first octet 192), yet the
pattern matches the text `127.10`, the run writes the rewritten copy
`nameserver 192.168.10.0.3.1` and the resolved path leaves `/etc/resolv.conf`. -/
theorem checkResolvConf_rewrites_without_loopback :
    privateResolverHost.ReadFile "/etc/resolv.conf" = some "nameserver 192.168.127.10\n" ∧
    hasLoopbackEntry "nameserver 192.168.127.10\n" = false ∧
    checkResolvConf "lxcbr0" privateResolverHost State.initial =
      (.returned,
        { resolvConfPath := "/var/lib/docker/resolv.conf"
          dirs := [("/var/lib/docker", 0o700)]
          files := [("/var/lib/docker/resolv.conf",
            "nameserver 192.168.10.0.3.1\n", 0o644)] }) := by
  decide

/-- C4, amended: when the pattern `127(.[0-9]{0,3}){3}` has no match in the
host content (and the bridge's first address parses), `checkResolvConf` returns
with the resolved path equal to `/etc/resolv.conf` and with no directory and no
file created. -/
theorem checkResolvConf_no_match (iface : String) (host : Host) (st : State)
    (content : String) (i : Interface) (a0 : String) (rest : List String)
    (hostIp network : IP)
    (hread : host.ReadFile "/etc/resolv.conf" = some content)
    (hif : host.InterfaceByName iface = some i)
    (haddrs : i.Addrs = some (a0 :: rest))
    (hparse : ParseCIDR a0 = some (hostIp, network))
    (hno : hasMatch content.data = false) :
    checkResolvConf iface host st =
      (.returned,
        { resolvConfPath := "/etc/resolv.conf", dirs := st.dirs, files := st.files }) := by
  rw [checkResolvConf_of_parsed iface host st content i a0 rest hostIp network
    hread hif haddrs hparse]
  simp [ReplaceAllLiteral_of_no_match content (IP.String hostIp) hno]

/-- Witness of `checkResolvConf_no_match` on a host whose resolver file is
`nameserver 8.8.8.8`. -/
theorem checkResolvConf_no_match_witness :
    hasMatch "nameserver 8.8.8.8\n".data = false ∧
    checkResolvConf "lxcbr0" cleanResolverHost State.initial =
      (.returned, { resolvConfPath := "/etc/resolv.conf", dirs := [], files := [] }) :=
  ⟨by decide,
    checkResolvConf_no_match "lxcbr0" cleanResolverHost State.initial
      "nameserver 8.8.8.8\n" ⟨some ["10.0.3.1/24"]⟩ "10.0.3.1/24" []
      (IPv4 10 0 3 1) [10, 0, 3, 0] (by decide) (by decide) rfl (by decide) (by decide)⟩

/-- Each failure of `FatalCondition` makes `checkResolvConf` panic with the
resolved path untouched. -/
theorem checkResolvConf_panics_of_fatal (iface : String) (host : Host) (st : State)
    (hfail : FatalCondition iface host) :
    (checkResolvConf iface host st).1 = .panicked ∧
    (checkResolvConf iface host st).2.resolvConfPath = st.resolvConfPath := by
  cases hr : host.ReadFile "/etc/resolv.conf" with
  | none => simp [checkResolvConf, hr]
  | some content =>
    cases hi : host.InterfaceByName iface with
    | none => simp [checkResolvConf, hr, hi]
    | some i =>
      cases ha : i.Addrs with
      | none => simp [checkResolvConf, hr, hi, ha]
      | some a =>
        cases a with
        | nil => simp [checkResolvConf, hr, hi, ha]
        | cons a0 rest =>
          cases hp : ParseCIDR a0 with
          | none => simp [checkResolvConf, hr, hi, ha, hp]
          | some r =>
            obtain ⟨hostIp, network⟩ := r
            rw [checkResolvConf_of_parsed iface host st content i a0 rest hostIp network
              hr hi ha hp]
            rcases hfail with h | h | ⟨j, hj, h⟩ | ⟨j, b0, brest, hj, hb, h⟩ |
              ⟨content1, j, b0, brest, ip1, nw1, hr1, hj, hb, hp1, hne, h⟩
            · simp [hr] at h
            · simp [hi] at h
            · rw [hi] at hj
              cases hj
              rcases h with h | h <;> simp [ha] at h
            · rw [hi] at hj
              cases hj
              rw [ha] at hb
              cases hb
              simp [hp] at h
            · rw [hi] at hj
              cases hj
              rw [ha] at hb
              cases hb
              rw [hr] at hr1
              cases hr1
              rw [hp] at hp1
              cases hp1
              dsimp only
              rw [if_pos hne]
              rcases h with h | h
              · rw [if_pos h]
                exact ⟨rfl, rfl⟩
              · by_cases hm : host.MkdirAll "/var/lib/docker" 0o700 = false
                · rw [if_pos hm]
                  exact ⟨rfl, rfl⟩
                · rw [if_neg hm, if_pos h]
                  exact ⟨rfl, rfl⟩

/-- A run of `checkResolvConf` panics only on a failure of `FatalCondition`. -/
theorem fatal_of_checkResolvConf_panics (iface : String) (host : Host) (st : State)
    (h : (checkResolvConf iface host st).1 = .panicked) : FatalCondition iface host := by
  unfold FatalCondition
  cases hr : host.ReadFile "/etc/resolv.conf" with
  | none => exact Or.inl rfl
  | some content =>
    cases hi : host.InterfaceByName iface with
    | none => exact Or.inr (Or.inl rfl)
    | some i =>
      cases ha : i.Addrs with
      | none => exact Or.inr (Or.inr (Or.inl ⟨i, rfl, Or.inl ha⟩))
      | some a =>
        cases a with
        | nil => exact Or.inr (Or.inr (Or.inl ⟨i, rfl, Or.inr ha⟩))
        | cons a0 rest =>
          cases hp : ParseCIDR a0 with
          | none => exact Or.inr (Or.inr (Or.inr (Or.inl ⟨i, a0, rest, rfl, ha, hp⟩)))
          | some r =>
            obtain ⟨hostIp, network⟩ := r
            rw [checkResolvConf_of_parsed iface host st content i a0 rest hostIp network
              hr hi ha hp] at h
            refine Or.inr (Or.inr (Or.inr (Or.inr
              ⟨content, i, a0, rest, hostIp, network, rfl, rfl, ha, hp, ?_⟩)))
            dsimp only at h
            split_ifs at h with h1 h2 h3
            · exact ⟨h1, Or.inl h2⟩
            · exact ⟨h1, Or.inr h3⟩

/-- C10: on each listed failure (unreadable resolver file, failed bridge
lookup, failed or empty address listing, first address not parsing as CIDR,
or, the substituted content differing, a failed directory creation or file
write) `checkResolvConf` panics and the resolved path keeps the value it had;
it panics in no other case; and a failed bridge lookup panics, leaving the
whole state as it was, also when the host content has no match. -/
theorem checkResolvConf_fatal (iface : String) (host : Host) (st : State) :
    (FatalCondition iface host ↔ (checkResolvConf iface host st).1 = .panicked) ∧
    (FatalCondition iface host →
      (checkResolvConf iface host st).2.resolvConfPath = st.resolvConfPath) ∧
    (∀ content, host.ReadFile "/etc/resolv.conf" = some content →
      hasMatch content.data = false → host.InterfaceByName iface = none →
      checkResolvConf iface host st = (.panicked, st)) := by
  refine ⟨⟨fun h => (checkResolvConf_panics_of_fatal iface host st h).1,
    fatal_of_checkResolvConf_panics iface host st⟩,
    fun h => (checkResolvConf_panics_of_fatal iface host st h).2, ?_⟩
  intro content hr _ hi
  simp [checkResolvConf, hr, hi]

/-- Witness of `checkResolvConf_fatal`: a host without the bridge interface,
whose resolver file has no match. -/
theorem checkResolvConf_fatal_witness :
    FatalCondition "lxcbr0" noBridgeHost ∧
    hasMatch "nameserver 8.8.8.8\n".data = false ∧
    checkResolvConf "lxcbr0" noBridgeHost State.initial = (.panicked, State.initial) :=
  ⟨Or.inr (Or.inl rfl), by decide,
    (checkResolvConf_fatal "lxcbr0" noBridgeHost State.initial).2.2
      "nameserver 8.8.8.8\n" (by decide) (by decide) rfl⟩

/-! ## Decimal digits -/

/-- Every character `Nat.toDigitsCore 10` adds is a decimal digit character. -/
theorem toDigitsCore_chars (P : Char → Prop) (hP : ∀ k < 10, P (Nat.digitChar k)) :
    ∀ (fuel n : Nat) (ds : List Char), (∀ c ∈ ds, P c) →
      ∀ c ∈ Nat.toDigitsCore 10 fuel n ds, P c
  | 0, _, ds, hds => by simpa [Nat.toDigitsCore] using hds
  | fuel + 1, n, ds, hds => by
    intro c hc
    simp only [Nat.toDigitsCore] at hc
    have hcons : ∀ c ∈ Nat.digitChar (n % 10) :: ds, P c := by
      intro c hc
      rcases List.mem_cons.mp hc with h | h
      · rw [h]; exact hP _ (Nat.mod_lt _ (by decide))
      · exact hds c h
    split at hc
    · exact hcons c hc
    · exact toDigitsCore_chars P hP fuel (n / 10) _ hcons c hc

/-- A property of the ten digit characters holds of every character of a
printed natural number. -/
theorem natRepr_chars (P : Char → Prop) (hP : ∀ k < 10, P (Nat.digitChar k)) (n : Nat) :
    ∀ c ∈ (Nat.repr n).data, P c := by
  intro c hc
  exact toDigitsCore_chars P hP (n + 1) n [] (by simp) c (by simpa [Nat.repr, Nat.toDigits, List.asString] using hc)

/-- A property of the ten digit characters and of `-` holds of every character
of a printed integer. -/
theorem printInt_chars (P : Char → Prop) (hP : ∀ k < 10, P (Nat.digitChar k)) (hm : P '-')
    (n : Int) : ∀ c ∈ (printInt n).data, P c := by
  intro c hc
  cases n with
  | ofNat m =>
    exact natRepr_chars P hP m c (by simpa [printInt, toString] using hc)
  | negSucc m =>
    have : (printInt (Int.negSucc m)).data = '-' :: (Nat.repr (m + 1)).data := by
      simp [printInt, toString]
    rw [this] at hc
    rcases List.mem_cons.mp hc with h | h
    · rw [h]; exact hm
    · exact natRepr_chars P hP (m + 1) c h

/-- A printed integer has no letter `w`. -/
theorem printInt_no_w (n : Int) : 'w' ∉ (printInt n).data := by
  intro h
  exact printInt_chars (fun c => c ≠ 'w') (by decide) (by decide) n 'w' h rfl

/-! ## The limits section -/

/-- A text occurs in every text built around it. -/
theorem occurs_of_eq {needle text : String} (pre post : String)
    (h : text.data = pre.data ++ (needle.data ++ post.data)) : Occurs needle text := by
  unfold Occurs
  exact ⟨pre.data, post.data, by rw [h, List.append_assoc]⟩

/-- With `Memory = 0` the limits section is its header and an empty line. -/
theorem limitsSection_of_zero (c : Container) (h : c.Config.Memory = 0) :
    limitsSection c = "# limits\n\n" := by
  simp [limitsSection, h]

/-- With `Memory ≠ 0` the limits section is its header, the limit line, the
soft-limit line and the text of the `with` action. -/
theorem limitsSection_of_ne (c : Container) (h : c.Config.Memory ≠ 0) :
    limitsSection c =
      "# limits\n" ++ ("\n" ++ limitDirective c.Config.Memory ++ "\n" ++
        softLimitDirective c.Config.Memory ++ "\n" ++ swapPart c ++ "\n") ++ "\n" := by
  unfold limitsSection swapPart limitDirective softLimitDirective swapLimitDirective
  rw [if_pos h]
  simp only [String.append_assoc]

/-- With `Memory ≠ 0` the limits section has the limit line. -/
theorem hasLine_limit (c : Container) (h : c.Config.Memory ≠ 0) :
    HasLine (limitDirective c.Config.Memory) (limitsSection c) := by
  apply occurs_of_eq "# limits\n"
    (softLimitDirective c.Config.Memory ++ "\n" ++ swapPart c ++ "\n" ++ "\n")
  rw [limitsSection_of_ne c h]
  simp only [String.data_append, List.append_assoc]

/-- With `Memory ≠ 0` the limits section has the soft-limit line. -/
theorem hasLine_softLimit (c : Container) (h : c.Config.Memory ≠ 0) :
    HasLine (softLimitDirective c.Config.Memory) (limitsSection c) := by
  apply occurs_of_eq ("# limits\n" ++ "\n" ++ limitDirective c.Config.Memory)
    (swapPart c ++ "\n" ++ "\n")
  rw [limitsSection_of_ne c h]
  simp only [String.data_append, List.append_assoc]

/-- With `Memory ≠ 0` and a non-zero swap limit the limits section has the
swap-limit line. -/
theorem hasLine_swapLimit (c : Container) (h : c.Config.Memory ≠ 0)
    (hs : getMemorySwap c.Config ≠ 0) :
    HasLine (swapLimitDirective (getMemorySwap c.Config)) (limitsSection c) := by
  apply occurs_of_eq ("# limits\n" ++ "\n" ++ limitDirective c.Config.Memory ++ "\n" ++
    softLimitDirective c.Config.Memory ++ "\n") ("\n" ++ "\n")
  rw [limitsSection_of_ne c h]
  unfold swapPart
  rw [if_pos hs]
  simp only [String.data_append, List.append_assoc]

/-- With a zero swap limit the limits section does not name the swap-limit
key. -/
theorem no_swap_key (c : Container) (hs : getMemorySwap c.Config = 0) :
    ¬ Occurs "lxc.cgroup.memory.memsw.limit_in_bytes" (limitsSection c) := by
  intro hocc
  have hw : 'w' ∈ (limitsSection c).data :=
    List.IsInfix.subset hocc (by decide)
  by_cases h : c.Config.Memory = 0
  · rw [limitsSection_of_zero c h] at hw
    revert hw
    decide
  · rw [limitsSection_of_ne c h] at hw
    have hp := printInt_no_w c.Config.Memory
    simp only [swapPart, hs, ne_eq, not_true_eq_false, if_false, limitDirective,
      softLimitDirective, String.data_append, List.mem_append] at hw
    rcases hw with ((hw | (((((hw | hw | hw) | hw) | hw | hw) | hw) | hw) | hw) | hw)
    all_goals first
      | exact hp hw
      | (revert hw; decide)

/-! ## Ordered occurrences -/

/-- Ordered occurrences survive a longer text in front. -/
theorem OrderedIn.append_left (x : List Char) :
    ∀ (ps : List String) (t : List Char), OrderedIn ps t → OrderedIn ps (x ++ t)
  | [], _, _ => trivial
  | _ :: _, _, ⟨pre, rest, ht, h⟩ => ⟨x ++ pre, rest, by rw [ht, List.append_assoc], h⟩

/-- The search finds an occurrence no later than any given one. -/
theorem findAfter_of_eq (p rest : List Char) :
    ∀ (pre t : List Char), t = pre ++ (p ++ rest) → ∃ x, findAfter p t = some (x ++ rest)
  | [], t, ht => by
    subst ht
    cases hp : p with
    | nil =>
      cases rest with
      | nil => exact ⟨[], by simp [findAfter]⟩
      | cons c r => exact ⟨[], by simp [findAfter]⟩
    | cons a p' =>
      refine ⟨[], ?_⟩
      have hpre : (a :: p').isPrefixOf (a :: (p' ++ rest)) = true := by
        rw [List.isPrefixOf_iff_prefix]
        exact ⟨rest, rfl⟩
      simp only [List.nil_append, List.cons_append, findAfter, hpre, if_true]
      simp
  | a :: pre, t, ht => by
    subst ht
    by_cases hpre : p.isPrefixOf (a :: pre ++ (p ++ rest)) = true
    · have hle : p.length ≤ (a :: (pre ++ p)).length := by
        simp only [List.length_cons, List.length_append]
        omega
      refine ⟨(a :: (pre ++ p)).drop p.length, ?_⟩
      have hassoc : a :: (pre ++ (p ++ rest)) = (a :: (pre ++ p)) ++ rest := by simp
      simp only [List.cons_append] at hpre ⊢
      simp only [findAfter, hpre, if_true]
      rw [hassoc, List.drop_append_of_le_length hle]
    · obtain ⟨x, hx⟩ := findAfter_of_eq p rest pre (pre ++ (p ++ rest)) rfl
      refine ⟨x, ?_⟩
      simp only [List.cons_append] at hpre ⊢
      simp only [findAfter, hpre]
      exact hx

/-- The left-to-right search succeeds on every ordered occurrence. -/
theorem orderedInB_of_orderedIn :
    ∀ (ps : List String) (t : List Char), OrderedIn ps t → orderedInB ps t = true
  | [], _, _ => rfl
  | p :: ps, t, ⟨pre, rest, ht, h⟩ => by
    obtain ⟨x, hx⟩ := findAfter_of_eq p.data rest pre t ht
    simp only [orderedInB, hx]
    exact orderedInB_of_orderedIn ps _ (OrderedIn.append_left x ps rest h)

/-- Ordered occurrences in two texts give ordered occurrences in their
concatenation. -/
theorem OrderedIn.append :
    ∀ (l₁ l₂ : List String) (a b : List Char),
      OrderedIn l₁ a → OrderedIn l₂ b → OrderedIn (l₁ ++ l₂) (a ++ b)
  | [], l₂, a, b, _, h₂ => OrderedIn.append_left a l₂ b h₂
  | _ :: ps, l₂, _, b, ⟨pre, rest, ht, h⟩, h₂ =>
    ⟨pre, rest ++ b, by rw [ht]; simp, OrderedIn.append ps l₂ rest b h h₂⟩

/-- What the search returns follows an occurrence. -/
theorem findAfter_sound (p : List Char) :
    ∀ (t r : List Char), findAfter p t = some r → ∃ pre, t = pre ++ (p ++ r)
  | [], r, h => by
    simp only [findAfter] at h
    split at h
    · rename_i hp
      cases h
      exact ⟨[], by simpa using hp⟩
    · cases h
  | c :: t, r, h => by
    simp only [findAfter] at h
    split at h
    · rename_i hp
      cases h
      rw [List.isPrefixOf_iff_prefix] at hp
      obtain ⟨s, hs⟩ := hp
      refine ⟨[], ?_⟩
      rw [← hs]
      simp
    · obtain ⟨pre, hpre⟩ := findAfter_sound p t r h
      exact ⟨c :: pre, by rw [hpre]; rfl⟩

/-- A successful search exhibits ordered occurrences. -/
theorem orderedIn_of_orderedInB :
    ∀ (ps : List String) (t : List Char), orderedInB ps t = true → OrderedIn ps t
  | [], _, _ => trivial
  | p :: ps, t, h => by
    simp only [orderedInB] at h
    split at h
    · cases h
    · rename_i r hr
      obtain ⟨pre, hpre⟩ := findAfter_sound p.data t r hr
      exact ⟨pre, r, hpre, orderedIn_of_orderedInB ps r h⟩

/-- The texts woven with gaps occur in the result in order. -/
theorem orderedIn_weave :
    ∀ (gaps ds : List String), OrderedIn ds (weave gaps ds).data
  | _, [] => trivial
  | [], d :: ds =>
    ⟨[], (weave [] ds).data, by simp [weave, String.data_append], orderedIn_weave [] ds⟩
  | gap :: gaps, d :: ds =>
    ⟨gap.data, (weave gaps ds).data, by simp [weave, String.data_append],
      orderedIn_weave gaps ds⟩

/-- Ordered occurrences survive a longer text behind. -/
theorem OrderedIn.append_right (ps : List String) (t x : List Char) (h : OrderedIn ps t) :
    OrderedIn ps (t ++ x) := by
  have := OrderedIn.append ps [] t x h trivial
  simpa using this

/-- A text that is a weave followed by a tail has the woven texts in order. -/
theorem orderedIn_of_weave (gaps ds : List String) (tail : String) (t : String)
    (h : t.data = (weave gaps ds).data ++ tail.data) : OrderedIn ds t.data := by
  rw [h]
  exact OrderedIn.append_right _ _ _ (orderedIn_weave gaps ds)

/-- The hostname section has the hostname directive. -/
theorem orderedIn_hostnameSection (c : Container) :
    OrderedIn [hostnameDirective c] (hostnameSection c).data := by
  apply orderedIn_of_weave ["\n# hostname\n\n"] _ "\n\n#lxc.aa_profile = unconfined\n\n"
  by_cases hh : c.Config.Hostname = "" <;>
    simp [hostnameSection, hostnameDirective, weave, hh, String.data_append]

set_option maxRecDepth 4000 in
/-- The network section has the network directives in order. -/
theorem orderedIn_networkSection (c : Container) :
    OrderedIn (networkDirectives c) (networkSection c).data := by
  apply orderedIn_of_weave ["# network configuration\n", "\n", "\n", "\n", "\n", "\n"] _ "\n\n"
  simp [networkSection, networkDirectives, weave, String.data_append]

/-- The root filesystem section has its directive. -/
theorem orderedIn_rootfsSection (c : Container) :
    OrderedIn [rootfsDirective c] (rootfsSection c).data := by
  apply orderedIn_of_weave ["# root filesystem\n\n"] _ "\n\n"
  simp [rootfsSection, rootfsDirective, weave, String.data_append]

set_option maxRecDepth 8000 in
/-- The mount section has the five mount entries in order. -/
theorem orderedIn_mountSection (c : Container) (p : String) :
    OrderedIn (mountEntries c p) (mountSection c p).data := by
  apply orderedIn_of_weave
    ["# standard mount point\n", "\n", "\n",
     "\n#lxc.mount.entry = varrun " ++ c.Mountpoint.Root ++
        "/var/run tmpfs mode=755,size=4096k,nosuid,nodev,noexec 0 0\n" ++
      "#lxc.mount.entry = varlock " ++ c.Mountpoint.Root ++
        "/var/lock tmpfs size=1024k,nosuid,nodev,noexec 0 0\n" ++
      "#lxc.mount.entry = shm " ++ c.Mountpoint.Root ++
        "/dev/shm tmpfs size=65536k,nosuid,nodev,noexec 0 0\n" ++
      "\n# Inject docker-init\n",
     "\n\n# In order to get a working DNS environment, mount bind (ro) the host\x27s /etc/resolv.conf into the container\n\n"]
    _ "\n\n"
  simp [mountSection, mountEntries, weave, String.data_append]

/-- The capability section has its directive. -/
theorem orderedIn_capDropSection :
    OrderedIn [capDropDirective] capDropSection.data :=
  orderedIn_of_orderedInB _ _ (by decide!)

/-- The device section has the console and device directives in order. -/
theorem orderedIn_deviceSection :
    OrderedIn consoleDeviceDirectives deviceSection.data :=
  orderedIn_of_orderedInB _ _ (by decide!)

/-- The directives of the memory block occur in the limits section in the
order written. -/
theorem orderedIn_limitsSection (c : Container) :
    OrderedIn (memoryBlock c) (limitsSection c).data := by
  unfold memoryBlock
  by_cases h : c.Config.Memory = 0
  · simp [h, OrderedIn]
  · rw [if_pos h]
    by_cases hs : getMemorySwap c.Config = 0
    · apply orderedIn_of_weave ["# limits\n\n", "\n"] _ "\n\n\n"
      rw [limitsSection_of_ne c h]
      simp [swapPart, hs, weave, String.data_append]
    · apply orderedIn_of_weave ["# limits\n\n", "\n", "\n\n"] _ "\n\n\n"
      rw [limitsSection_of_ne c h]
      simp [swapPart, hs, weave, String.data_append]

/-- The rendered document ends with the limits section. -/
theorem limitsSection_suffix (c : Container) (p : String) :
    (limitsSection c).data <:+ (LxcTemplate c p).data := by
  unfold LxcTemplate
  simp only [String.data_append]
  exact List.suffix_append _ _

/-- With `Memory = 0` the limits section names none of the three memory
keys. -/
theorem no_limit_keys_of_zero (c : Container) (h : c.Config.Memory = 0) :
    ¬ Occurs "lxc.cgroup.memory.limit_in_bytes" (limitsSection c) ∧
    ¬ Occurs "lxc.cgroup.memory.soft_limit_in_bytes" (limitsSection c) ∧
    ¬ Occurs "lxc.cgroup.memory.memsw.limit_in_bytes" (limitsSection c) := by
  rw [limitsSection_of_zero c h]
  decide

/-- The rendered document starts with the hostname header and directive. -/
theorem utsname_prefix (c : Container) (p : String) :
    ("\n# hostname\n\n" ++ hostnameDirective c ++ "\n").data <+: (LxcTemplate c p).data := by
  refine ⟨("\n#lxc.aa_profile = unconfined\n\n" ++ networkSection c ++ rootfsSection c ++
    deviceSection ++ mountSection c p ++ capDropSection ++ limitsSection c).data, ?_⟩
  by_cases hh : c.Config.Hostname = "" <;>
    simp [LxcTemplate, hostnameSection, hostnameDirective, hh, String.data_append]

/-! ## The rendered document -/

/-- C5: for a container with `Memory > 0` the limits section, which ends the
rendered document, names the swap-limit key exactly when
`S = getMemorySwap(Config)` is not zero, and then has the line
`lxc.cgroup.memory.memsw.limit_in_bytes = S`; the limit and soft-limit lines
are there in both cases. With `Memory = 512`, `MemorySwap = 0` the swap limit
is 1024; with `Memory = 512`, `MemorySwap = -1` the swap-limit key is absent
and the limit and soft-limit lines remain. -/
theorem limitsSection_swap_limit (c : Container) (hM : 0 < c.Config.Memory) :
    (∀ p, (limitsSection c).data <:+ (LxcTemplate c p).data) ∧
    (Occurs "lxc.cgroup.memory.memsw.limit_in_bytes" (limitsSection c) ↔
      getMemorySwap c.Config ≠ 0) ∧
    (getMemorySwap c.Config ≠ 0 →
      HasLine (swapLimitDirective (getMemorySwap c.Config)) (limitsSection c)) ∧
    HasLine (limitDirective c.Config.Memory) (limitsSection c) ∧
    HasLine (softLimitDirective c.Config.Memory) (limitsSection c) ∧
    (c.Config.Memory = 512 → c.Config.MemorySwap = 0 →
      HasLine "lxc.cgroup.memory.memsw.limit_in_bytes = 1024" (limitsSection c)) ∧
    (c.Config.Memory = 512 → c.Config.MemorySwap = -1 →
      ¬ Occurs "lxc.cgroup.memory.memsw.limit_in_bytes" (limitsSection c) ∧
      HasLine "lxc.cgroup.memory.limit_in_bytes = 512" (limitsSection c) ∧
      HasLine "lxc.cgroup.memory.soft_limit_in_bytes = 512" (limitsSection c)) := by
  have hne : c.Config.Memory ≠ 0 := by omega
  refine ⟨limitsSection_suffix c, ⟨?_, ?_⟩, hasLine_swapLimit c hne, hasLine_limit c hne,
    hasLine_softLimit c hne, ?_, ?_⟩
  · intro hocc hs
    exact no_swap_key c hs hocc
  · intro hs
    have hline : ("lxc.cgroup.memory.memsw.limit_in_bytes" : String).data <:+:
        ("\n" ++ swapLimitDirective (getMemorySwap c.Config) ++ "\n").data :=
      ⟨"\n".data, (" = " ++ printInt (getMemorySwap c.Config) ++ "\n").data, by
        simp [swapLimitDirective, String.data_append]⟩
    exact List.IsInfix.trans hline (hasLine_swapLimit c hne hs)
  · intro h1 h2
    have hs : getMemorySwap c.Config = 1024 := by
      simp [getMemorySwap, wrapInt64, h1, h2]
    have := hasLine_swapLimit c hne (by rw [hs]; decide)
    rw [hs] at this
    exact this
  · intro h1 h2
    have hs : getMemorySwap c.Config = 0 := by
      simp [getMemorySwap, h2]
    refine ⟨no_swap_key c hs, ?_, ?_⟩
    · have := hasLine_limit c hne
      rw [h1] at this
      exact this
    · have := hasLine_softLimit c hne
      rw [h1] at this
      exact this

/-- Witness of `limitsSection_swap_limit` on the example container, whose
memory limit is 512 with the default swap. -/
theorem limitsSection_swap_limit_witness :
    0 < exampleContainer.Config.Memory ∧
    HasLine "lxc.cgroup.memory.memsw.limit_in_bytes = 1024" (limitsSection exampleContainer) :=
  ⟨by decide, (limitsSection_swap_limit exampleContainer (by decide)).2.2.2.2.2.1 rfl rfl⟩

/-- C6, as stated, fails: `Memory = -1` is an `int64`, not positive, and the
limits section has the limit and the soft-limit lines, with value `-1`. -/
theorem limitsSection_negative_memory :
    IsInt64 negativeMemoryContainer.Config.Memory ∧
    HasLine "lxc.cgroup.memory.limit_in_bytes = -1" (limitsSection negativeMemoryContainer) ∧
    HasLine "lxc.cgroup.memory.soft_limit_in_bytes = -1"
      (limitsSection negativeMemoryContainer) ∧
    ¬ 0 < negativeMemoryContainer.Config.Memory := by
  decide

/-- C6, amended: if the limits section names the limit or the soft-limit key
then `Memory ≠ 0`; so `Memory > 0` whenever `Memory` is not negative. -/
theorem limitsSection_limit_only_if_nonzero (c : Container)
    (h : Occurs "lxc.cgroup.memory.limit_in_bytes" (limitsSection c) ∨
      Occurs "lxc.cgroup.memory.soft_limit_in_bytes" (limitsSection c)) :
    c.Config.Memory ≠ 0 ∧ (0 ≤ c.Config.Memory → 0 < c.Config.Memory) := by
  have hne : c.Config.Memory ≠ 0 := by
    intro h0
    have := no_limit_keys_of_zero c h0
    rcases h with h | h
    · exact this.1 h
    · exact this.2.1 h
  exact ⟨hne, fun h0 => by omega⟩

/-- Witness of `limitsSection_limit_only_if_nonzero` on the example
container. -/
theorem limitsSection_limit_only_if_nonzero_witness :
    Occurs "lxc.cgroup.memory.limit_in_bytes" (limitsSection exampleContainer) ∧
    exampleContainer.Config.Memory ≠ 0 :=
  ⟨by decide, (limitsSection_limit_only_if_nonzero exampleContainer (Or.inl (by decide))).1⟩

/-- C7: with `Memory = 0` the limits section, which ends the rendered
document, is the header and an empty line and names none of the limit,
soft-limit and swap-limit keys; with `Memory = M > 0` it has the lines
`lxc.cgroup.memory.limit_in_bytes = M` and
`lxc.cgroup.memory.soft_limit_in_bytes = M`, both with the same `M` (512 in
the example). -/
theorem limitsSection_memory (c : Container) :
    (∀ p, (limitsSection c).data <:+ (LxcTemplate c p).data) ∧
    (c.Config.Memory = 0 →
      limitsSection c = "# limits\n\n" ∧
      ¬ Occurs "lxc.cgroup.memory.limit_in_bytes" (limitsSection c) ∧
      ¬ Occurs "lxc.cgroup.memory.soft_limit_in_bytes" (limitsSection c) ∧
      ¬ Occurs "lxc.cgroup.memory.memsw.limit_in_bytes" (limitsSection c)) ∧
    (0 < c.Config.Memory →
      HasLine ("lxc.cgroup.memory.limit_in_bytes = " ++ printInt c.Config.Memory)
        (limitsSection c) ∧
      HasLine ("lxc.cgroup.memory.soft_limit_in_bytes = " ++ printInt c.Config.Memory)
        (limitsSection c)) ∧
    (c.Config.Memory = 512 →
      HasLine "lxc.cgroup.memory.limit_in_bytes = 512" (limitsSection c) ∧
      HasLine "lxc.cgroup.memory.soft_limit_in_bytes = 512" (limitsSection c)) := by
  refine ⟨limitsSection_suffix c,
    fun h => ⟨limitsSection_of_zero c h, no_limit_keys_of_zero c h⟩, ?_, ?_⟩
  · intro h
    have hne : c.Config.Memory ≠ 0 := by omega
    exact ⟨hasLine_limit c hne, hasLine_softLimit c hne⟩
  · intro h
    have hne : c.Config.Memory ≠ 0 := by omega
    have h1 := hasLine_limit c hne
    have h2 := hasLine_softLimit c hne
    rw [h] at h1 h2
    exact ⟨h1, h2⟩

/-- Witness of `limitsSection_memory`: no memory limit, and a limit of 512. -/
theorem limitsSection_memory_witness :
    unlimitedContainer.Config.Memory = 0 ∧
    limitsSection unlimitedContainer = "# limits\n\n" ∧
    exampleContainer.Config.Memory = 512 ∧
    HasLine "lxc.cgroup.memory.limit_in_bytes = 512" (limitsSection exampleContainer) ∧
    HasLine "lxc.cgroup.memory.soft_limit_in_bytes = 512" (limitsSection exampleContainer) :=
  ⟨rfl, ((limitsSection_memory unlimitedContainer).2.1 rfl).1, rfl,
    (limitsSection_memory exampleContainer).2.2.2 rfl⟩

/-- C8: the rendered document starts with the hostname header followed by the
line `lxc.utsname = H`, where `H` is `Config.Hostname` when that is not empty
and the container `Id` otherwise; `Hostname = ""` with `Id = "abc123"` gives
`abc123` and `Hostname = "web1"` gives `web1`. -/
theorem LxcTemplate_utsname (c : Container) (p : String) :
    (c.Config.Hostname ≠ "" →
      ("\n# hostname\n\nlxc.utsname = " ++ c.Config.Hostname ++ "\n").data <+:
        (LxcTemplate c p).data) ∧
    (c.Config.Hostname = "" →
      ("\n# hostname\n\nlxc.utsname = " ++ c.Id ++ "\n").data <+: (LxcTemplate c p).data) ∧
    (c.Config.Hostname = "" → c.Id = "abc123" →
      "\n# hostname\n\nlxc.utsname = abc123\n".data <+: (LxcTemplate c p).data) ∧
    (c.Config.Hostname = "web1" →
      "\n# hostname\n\nlxc.utsname = web1\n".data <+: (LxcTemplate c p).data) := by
  have h := utsname_prefix c p
  refine ⟨?_, ?_, ?_, ?_⟩
  · intro hh
    simpa [hostnameDirective, hh, String.data_append] using h
  · intro hh
    simpa [hostnameDirective, hh, String.data_append] using h
  · intro hh hid
    simpa [hostnameDirective, hh, hid, String.data_append] using h
  · intro hh
    simpa [hostnameDirective, hh, String.data_append] using h

/-- Witness of `LxcTemplate_utsname`: the container `abc123` without host name,
and the container with host name `web1`. -/
theorem LxcTemplate_utsname_witness :
    "\n# hostname\n\nlxc.utsname = abc123\n".data <+:
      (LxcTemplate unlimitedContainer "/etc/resolv.conf").data ∧
    "\n# hostname\n\nlxc.utsname = web1\n".data <+:
      (LxcTemplate exampleContainer "/etc/resolv.conf").data :=
  ⟨(LxcTemplate_utsname unlimitedContainer "/etc/resolv.conf").2.2.1 rfl rfl,
    (LxcTemplate_utsname exampleContainer "/etc/resolv.conf").2.2.2 rfl⟩

/-- C9, as stated, fails: in the document rendered for the example container
the directives do not occur in the claimed order (hostname, console and device
boilerplate, network, root filesystem, mounts, capabilities, memory): no
network directive follows the boilerplate. -/
theorem LxcTemplate_claimed_order_fails :
    ¬ OrderedIn (claimedOrder exampleContainer "/etc/resolv.conf")
      (LxcTemplate exampleContainer "/etc/resolv.conf").data := by
  intro h
  have hb := orderedInB_of_orderedIn _ _ h
  revert hb
  decide!

/-- C9, amended: in every rendered document the directives occur in the order
hostname directive, network directives, root filesystem directive, static
pts/console/tty/device-access boilerplate, standard mount entries,
capability-drop directive, memory-limit block, each one entirely before the
next. -/
theorem LxcTemplate_section_order (c : Container) (p : String) :
    OrderedIn (templateOrder c p) (LxcTemplate c p).data := by
  unfold templateOrder LxcTemplate
  simp only [String.data_append]
  exact OrderedIn.append _ _ _ _ (OrderedIn.append _ _ _ _ (OrderedIn.append _ _ _ _
    (OrderedIn.append _ _ _ _ (OrderedIn.append _ _ _ _ (OrderedIn.append _ _ _ _
      (orderedIn_hostnameSection c) (orderedIn_networkSection c))
      (orderedIn_rootfsSection c)) orderedIn_deviceSection) (orderedIn_mountSection c p))
    orderedIn_capDropSection) (orderedIn_limitsSection c)

/-! ## Matches of the pattern -/

/-- A digit is not a newline. -/
theorem isDigit_ne_newline (c : Char) (h : c.isDigit = true) : c ≠ '\n' := by
  intro hc
  rw [hc] at h
  revert h
  decide

/-- A character that is not a newline may be put in front. -/
theorem noNewlineAt_cons (d : Char) (hd : d ≠ '\n') :
    ∀ (n : Nat) (s : List Char), noNewlineAt n s = true → noNewlineAt n (d :: s) = true
  | 0, _, _ => rfl
  | n + 1, [], h => by simp [noNewlineAt] at h
  | n + 1, c :: s, h => by
    simp only [noNewlineAt, Bool.and_eq_true, decide_eq_true_eq] at h ⊢
    exact ⟨hd, noNewlineAt_cons c h.1 n s h.2⟩

/-- Digits in front of a newline-free prefix give a newline-free prefix. -/
theorem noNewlineAt_of_digits (n : Nat) :
    ∀ (k : Nat) (s : List Char), digitsAt k s = true →
      noNewlineAt n (s.drop k) = true → noNewlineAt n s = true
  | 0, s, _, h => by simpa using h
  | k + 1, [], hd, _ => by simp [digitsAt] at hd
  | k + 1, d :: s, hd, h => by
    simp only [digitsAt, List.length_cons, List.take_succ_cons, List.all_cons,
      Bool.and_eq_true, decide_eq_true_eq] at hd
    have hk : digitsAt k s = true := by
      simp only [digitsAt, Bool.and_eq_true, decide_eq_true_eq]
      exact ⟨by omega, hd.2.2⟩
    have h1 := noNewlineAt_of_digits n k s hk (by simpa using h)
    exact noNewlineAt_cons d (isDigit_ne_newline d hd.2.1) n s h1

/-- An alternative succeeds when its last branch does. -/
theorem orElse_isSome_right {α : Type} (a b : Option α) (h : b.isSome = true) :
    (a <|> b).isSome = true := by
  cases a <;> simp [h]

/-- The groups match when enough characters free of newlines are there: each
group can take one character and no digit. -/
theorem matchGroups_isSome_of_noNewline :
    ∀ (n : Nat) (s : List Char), noNewlineAt n s = true → (matchGroups n s).isSome = true
  | 0, _, _ => rfl
  | n + 1, [], h => by simp [noNewlineAt] at h
  | n + 1, c :: s, h => by
    simp only [noNewlineAt, Bool.and_eq_true, decide_eq_true_eq] at h
    simp only [matchGroups, h.1, if_false]
    apply orElse_isSome_right
    apply orElse_isSome_right
    apply orElse_isSome_right
    have := matchGroups_isSome_of_noNewline n s h.2
    cases hm : matchGroups n s with
    | none => simp [hm] at this
    | some v => simp

/-- A match of `n` groups starts with `n` characters free of newlines. -/
theorem noNewline_of_matchGroups :
    ∀ (n : Nat) (s : List Char), (matchGroups n s).isSome = true → noNewlineAt n s = true
  | 0, _, _ => rfl
  | n + 1, [], h => by simp [matchGroups] at h
  | n + 1, c :: s, h => by
    simp only [matchGroups] at h
    split at h
    · simp at h
    · rename_i hc
      simp only [noNewlineAt, Bool.and_eq_true, decide_eq_true_eq]
      refine ⟨hc, ?_⟩
      have key : ∀ k, digitsAt k s = true → (matchGroups n (s.drop k)).isSome = true →
          noNewlineAt n s = true := fun k hk hm =>
        noNewlineAt_of_digits n k s hk (noNewline_of_matchGroups n _ hm)
      by_cases h3 : digitsAt 3 s = true ∧ (matchGroups n (s.drop 3)).isSome = true
      · exact key 3 h3.1 h3.2
      by_cases h2 : digitsAt 2 s = true ∧ (matchGroups n (s.drop 2)).isSome = true
      · exact key 2 h2.1 h2.2
      by_cases h1 : digitsAt 1 s = true ∧ (matchGroups n (s.drop 1)).isSome = true
      · exact key 1 h1.1 h1.2
      by_cases h0 : (matchGroups n s).isSome = true
      · exact noNewline_of_matchGroups n s h0
      exfalso
      have e3 : (if digitsAt 3 s = true then Option.map (· + 4) (matchGroups n (s.drop 3))
          else none) = none := by
        by_cases hd : digitsAt 3 s = true
        · have : (matchGroups n (s.drop 3)).isSome ≠ true := fun hh => h3 ⟨hd, hh⟩
          cases hm : matchGroups n (s.drop 3) <;> simp_all
        · simp [hd]
      have e2 : (if digitsAt 2 s = true then Option.map (· + 3) (matchGroups n (s.drop 2))
          else none) = none := by
        by_cases hd : digitsAt 2 s = true
        · have : (matchGroups n (s.drop 2)).isSome ≠ true := fun hh => h2 ⟨hd, hh⟩
          cases hm : matchGroups n (s.drop 2) <;> simp_all
        · simp [hd]
      have e1 : (if digitsAt 1 s = true then Option.map (· + 2) (matchGroups n (s.drop 1))
          else none) = none := by
        by_cases hd : digitsAt 1 s = true
        · have : (matchGroups n (s.drop 1)).isSome ≠ true := fun hh => h1 ⟨hd, hh⟩
          cases hm : matchGroups n (s.drop 1) <;> simp_all
        · simp [hd]
      have e0 : Option.map (· + 1) (matchGroups n s) = none := by
        cases hm : matchGroups n s <;> simp_all
      rw [e3, e2, e1, e0] at h
      simp at h

/-- The groups `(.[0-9]{0,3}){n}` match exactly at `n` characters free of
newlines. -/
theorem matchGroups_isSome_iff (n : Nat) (s : List Char) :
    (matchGroups n s).isSome = true ↔ noNewlineAt n s = true :=
  ⟨noNewline_of_matchGroups n s, matchGroups_isSome_of_noNewline n s⟩

/-- The pattern matches at the head of a text exactly when the text starts
with `127` and three characters free of newlines. -/
theorem matchAt_isSome_iff (s : List Char) :
    (matchAt s).isSome = true ↔
      ∃ x y z post, s = '1' :: '2' :: '7' :: x :: y :: z :: post ∧
        x ≠ '\n' ∧ y ≠ '\n' ∧ z ≠ '\n' := by
  constructor
  · intro h
    unfold matchAt at h
    split at h
    · rename_i t
      have hm : (matchGroups 3 t).isSome = true := by
        cases hh : matchGroups 3 t <;> simp_all
      have hn := noNewline_of_matchGroups 3 t hm
      match t, hn with
      | x :: y :: z :: post, hn =>
        simp only [noNewlineAt, Bool.and_eq_true, decide_eq_true_eq] at hn
        exact ⟨x, y, z, post, rfl, hn.1, hn.2.1, hn.2.2.1⟩
      | [], hn => simp [noNewlineAt] at hn
      | [_], hn => simp [noNewlineAt] at hn
      | [_, _], hn => simp [noNewlineAt] at hn
    · simp at h
  · rintro ⟨x, y, z, post, rfl, hx, hy, hz⟩
    have hn : noNewlineAt 3 (x :: y :: z :: post) = true := by
      simp [noNewlineAt, hx, hy, hz]
    have hm := matchGroups_isSome_of_noNewline 3 _ hn
    unfold matchAt
    cases hh : matchGroups 3 (x :: y :: z :: post) with
    | none => simp [hh] at hm
    | some v => simp [hh]

/-- The pattern has a match exactly in the texts with a `127` run. -/
theorem hasMatch_iff : ∀ s : List Char, hasMatch s = true ↔ Has127Run s
  | [] => by
    constructor
    · intro h; simp [hasMatch] at h
    · rintro ⟨pre, x, y, z, post, h, _⟩
      cases pre <;> simp at h
  | c :: s => by
    simp only [hasMatch, Bool.or_eq_true]
    constructor
    · rintro (h | h)
      · obtain ⟨x, y, z, post, hs, hx, hy, hz⟩ := (matchAt_isSome_iff _).mp h
        exact ⟨[], x, y, z, post, by simpa using hs, hx, hy, hz⟩
      · obtain ⟨pre, x, y, z, post, hs, hx, hy, hz⟩ := (hasMatch_iff s).mp h
        exact ⟨c :: pre, x, y, z, post, by rw [hs]; rfl, hx, hy, hz⟩
    · rintro ⟨pre, x, y, z, post, hs, hx, hy, hz⟩
      cases pre with
      | nil =>
        left
        exact (matchAt_isSome_iff _).mpr ⟨x, y, z, post, by simpa using hs, hx, hy, hz⟩
      | cons a pre =>
        right
        simp only [List.cons_append, List.cons.injEq] at hs
        exact (hasMatch_iff s).mpr ⟨pre, x, y, z, post, hs.2, hx, hy, hz⟩

/-! ## Lines of the mount section -/

/-- Each of the ordered texts occurs in the text. -/
theorem OrderedIn.infix_of_mem :
    ∀ (ps : List String) (t : List Char), OrderedIn ps t → ∀ p ∈ ps, p.data <:+: t
  | [], _, _, _, hp => by simp at hp
  | q :: ps, t, ⟨pre, rest, ht, h⟩, p, hp => by
    rcases List.mem_cons.mp hp with hq | hq
    · subst hq
      exact ⟨pre, rest, by rw [ht, List.append_assoc]⟩
    · have := OrderedIn.infix_of_mem ps rest h p hq
      refine List.IsInfix.trans this ?_
      exact ⟨pre ++ q.data, [], by rw [ht]; simp⟩

/-- The root filesystem section is part of the rendered document. -/
theorem rootfsSection_infix (c : Container) (p : String) :
    (rootfsSection c).data <:+: (LxcTemplate c p).data :=
  ⟨(hostnameSection c ++ networkSection c).data,
    (deviceSection ++ mountSection c p ++ capDropSection ++ limitsSection c).data, by
      simp only [LxcTemplate, String.data_append, List.append_assoc]⟩

/-- The mount section is part of the rendered document. -/
theorem mountSection_infix (c : Container) (p : String) :
    (mountSection c p).data <:+: (LxcTemplate c p).data :=
  ⟨(hostnameSection c ++ networkSection c ++ rootfsSection c ++ deviceSection).data,
    (capDropSection ++ limitsSection c).data, by
      simp only [LxcTemplate, String.data_append, List.append_assoc]⟩

/-- The root filesystem section has its directive as a line. -/
theorem hasLine_rootfs (c : Container) :
    HasLine ("lxc.rootfs = " ++ c.Mountpoint.Root) (rootfsSection c) := by
  apply occurs_of_eq "# root filesystem\n" "\n"
  simp [rootfsSection, String.data_append]

set_option maxRecDepth 8000 in
/-- The first, third and fifth mount entries are lines of the mount section. -/
theorem mountSection_odd_lines (c : Container) (p : String) :
    OrderedIn
      ["\n" ++ "lxc.mount.entry = proc " ++ c.Mountpoint.Root ++
          "/proc proc nosuid,nodev,noexec 0 0" ++ "\n",
       "\n" ++ "lxc.mount.entry = devpts " ++ c.Mountpoint.Root ++
          "/dev/pts devpts newinstance,ptmxmode=0666,nosuid,noexec 0 0" ++ "\n",
       "\n" ++ "lxc.mount.entry =" ++ p ++ " " ++ c.Mountpoint.Root ++
          "/etc/resolv.conf none bind,ro 0 0" ++ "\n"]
      (mountSection c p).data := by
  apply orderedIn_of_weave
    ["# standard mount point",
     "lxc.mount.entry = sysfs " ++ c.Mountpoint.Root ++ "/sys sysfs nosuid,nodev,noexec 0 0",
     "#lxc.mount.entry = varrun " ++ c.Mountpoint.Root ++
        "/var/run tmpfs mode=755,size=4096k,nosuid,nodev,noexec 0 0\n" ++
      "#lxc.mount.entry = varlock " ++ c.Mountpoint.Root ++
        "/var/lock tmpfs size=1024k,nosuid,nodev,noexec 0 0\n" ++
      "#lxc.mount.entry = shm " ++ c.Mountpoint.Root ++
        "/dev/shm tmpfs size=65536k,nosuid,nodev,noexec 0 0\n" ++
      "\n# Inject docker-init\n" ++
      "lxc.mount.entry = " ++ c.SysInitPath ++ " " ++ c.Mountpoint.Root ++
        "/sbin/init none bind,ro 0 0\n" ++
      "\n# In order to get a working DNS environment, mount bind (ro) the host\x27s /etc/resolv.conf into the container\n"]
    _ "\n"
  simp [mountSection, weave, String.data_append]

set_option maxRecDepth 8000 in
/-- The second and fourth mount entries are lines of the mount section. -/
theorem mountSection_even_lines (c : Container) (p : String) :
    OrderedIn
      ["\n" ++ "lxc.mount.entry = sysfs " ++ c.Mountpoint.Root ++
          "/sys sysfs nosuid,nodev,noexec 0 0" ++ "\n",
       "\n" ++ "lxc.mount.entry = " ++ c.SysInitPath ++ " " ++ c.Mountpoint.Root ++
          "/sbin/init none bind,ro 0 0" ++ "\n"]
      (mountSection c p).data := by
  apply orderedIn_of_weave
    ["# standard mount point\n" ++
      "lxc.mount.entry = proc " ++ c.Mountpoint.Root ++ "/proc proc nosuid,nodev,noexec 0 0",
     "lxc.mount.entry = devpts " ++ c.Mountpoint.Root ++
        "/dev/pts devpts newinstance,ptmxmode=0666,nosuid,noexec 0 0\n" ++
      "#lxc.mount.entry = varrun " ++ c.Mountpoint.Root ++
        "/var/run tmpfs mode=755,size=4096k,nosuid,nodev,noexec 0 0\n" ++
      "#lxc.mount.entry = varlock " ++ c.Mountpoint.Root ++
        "/var/lock tmpfs size=1024k,nosuid,nodev,noexec 0 0\n" ++
      "#lxc.mount.entry = shm " ++ c.Mountpoint.Root ++
        "/dev/shm tmpfs size=65536k,nosuid,nodev,noexec 0 0\n" ++
      "\n# Inject docker-init"]
    _ ("\n# In order to get a working DNS environment, mount bind (ro) the host\x27s /etc/resolv.conf into the container\n" ++
      "\nlxc.mount.entry =" ++ p ++ " " ++ c.Mountpoint.Root ++
        "/etc/resolv.conf none bind,ro 0 0\n\n")
  simp [mountSection, weave, String.data_append]

/-! ## Steps after start-up -/

/-- A step leaves the state as it is. -/
theorem Step.run_state (s : Step) (st : State) : (s.run st).2 = st := by
  cases s <;> rfl

/-- The result of a step is read off the resolved path of the state. -/
theorem Step.run_result (s : Step) (st : State) :
    (s.run st).1 =
      match s with
      | .getResolvConfPath => st.resolvConfPath
      | .render c => LxcTemplate c st.resolvConfPath := by
  cases s <;> rfl

/-- A sequence of steps leaves the state as it is. -/
theorem runSteps_state : ∀ (steps : List Step) (st : State), (runSteps steps st).2 = st
  | [], _ => rfl
  | s :: rest, st => by
    simp only [runSteps]
    rw [Step.run_state, runSteps_state rest st]

/-- Every step of a sequence runs in the state the sequence started in. -/
theorem runSteps_results :
    ∀ (steps : List Step) (st : State),
      (runSteps steps st).1 = steps.map fun s => (s.run st).1
  | [], _ => rfl
  | s :: rest, st => by
    simp only [runSteps, List.map_cons]
    rw [Step.run_state, runSteps_results rest st]

/-- The resolved path after a run is the last value assigned, or the old value
when nothing was assigned; a returning run assigns once, a panicking run
never. -/
theorem checkResolvConf_path_eq_assignment (iface : String) (host : Host) (st : State) :
    (checkResolvConf iface host st).2.resolvConfPath =
      ((checkResolvConfAssignments iface host).getLast?).getD st.resolvConfPath ∧
    ((checkResolvConf iface host st).1 = .returned →
      (checkResolvConfAssignments iface host).length = 1) ∧
    ((checkResolvConf iface host st).1 = .panicked →
      checkResolvConfAssignments iface host = []) := by
  cases hr : host.ReadFile "/etc/resolv.conf" with
  | none => simp [checkResolvConf, checkResolvConfAssignments, hr]
  | some content =>
    cases hi : host.InterfaceByName iface with
    | none => simp [checkResolvConf, checkResolvConfAssignments, hr, hi]
    | some i =>
      cases ha : i.Addrs with
      | none => simp [checkResolvConf, checkResolvConfAssignments, hr, hi, ha]
      | some a =>
        cases a with
        | nil => simp [checkResolvConf, checkResolvConfAssignments, hr, hi, ha]
        | cons a0 rest =>
          cases hp : ParseCIDR a0 with
          | none => simp [checkResolvConf, checkResolvConfAssignments, hr, hi, ha, hp]
          | some r =>
            obtain ⟨hostIp, network⟩ := r
            simp only [checkResolvConf, checkResolvConfAssignments, hr, hi, ha, hp]
            split_ifs <;> simp

/-- A returning run leaves one of the two paths in the variable. -/
theorem checkResolvConf_resolved (iface : String) (host : Host) (st st1 : State)
    (h : checkResolvConf iface host st = (.returned, st1)) : Resolved st1 := by
  unfold checkResolvConf at h
  unfold Resolved
  cases hr : host.ReadFile "/etc/resolv.conf" with
  | none => simp [hr] at h
  | some content =>
    cases hi : host.InterfaceByName iface with
    | none => simp [hr, hi] at h
    | some i =>
      cases ha : i.Addrs with
      | none => simp [hr, hi, ha] at h
      | some a =>
        cases a with
        | nil => simp [hr, hi, ha] at h
        | cons a0 rest =>
          cases hp : ParseCIDR a0 with
          | none => simp [hr, hi, ha, hp] at h
          | some r =>
            obtain ⟨hostIp, network⟩ := r
            simp only [hr, hi, ha, hp] at h
            split_ifs at h
            all_goals simp only [Prod.mk.injEq] at h
            all_goals obtain ⟨h1, h2⟩ := h
            all_goals first
              | exact absurd h1 (by decide)
              | (rw [← h2]; exact Or.inl rfl)
              | (rw [← h2]; exact Or.inr rfl)

/-! ## Wrapping arithmetic -/

/-- Doubling a positive `int64` modulo `2 ^ 64` never gives 0. -/
theorem wrapInt64_double_ne_zero (m : Int) (hpos : 0 < m) (hmax : m < (2 : Int) ^ 63) :
    wrapInt64 (m * 2) ≠ 0 := by
  unfold wrapInt64
  omega

/-- A negative integer is printed as `-` and its absolute value. -/
theorem printInt_neg (r : Int) (h : r < 0) : printInt r = "-" ++ toString r.natAbs := by
  cases r with
  | ofNat m => exact absurd h (by simp)
  | negSucc m => rfl

/-! ## Mounts, lifecycle and determinism -/

/-- C11: with `R = Mountpoint.Root`, `I = SysInitPath` and `P` the value
`getResolvConfPath` returns, the rendered document has the lines
`lxc.rootfs = R`, the proc, sysfs and devpts (newinstance) mount entries on
`R/proc`, `R/sys` and `R/dev/pts`, the init bind mount
`lxc.mount.entry = I R/sbin/init none bind,ro 0 0`, and the resolver bind mount
with source `P`, target `R/etc/resolv.conf` and options `none bind,ro 0 0`
(the template puts no blank between `=` and `P`). -/
theorem LxcTemplate_mount_entries (c : Container) (st : State) :
    HasLine ("lxc.rootfs = " ++ c.Mountpoint.Root) (LxcTemplateCompiled.Execute c st).1 ∧
    HasLine ("lxc.mount.entry = proc " ++ c.Mountpoint.Root ++
      "/proc proc nosuid,nodev,noexec 0 0") (LxcTemplateCompiled.Execute c st).1 ∧
    HasLine ("lxc.mount.entry = sysfs " ++ c.Mountpoint.Root ++
      "/sys sysfs nosuid,nodev,noexec 0 0") (LxcTemplateCompiled.Execute c st).1 ∧
    HasLine ("lxc.mount.entry = devpts " ++ c.Mountpoint.Root ++
      "/dev/pts devpts newinstance,ptmxmode=0666,nosuid,noexec 0 0")
      (LxcTemplateCompiled.Execute c st).1 ∧
    HasLine ("lxc.mount.entry = " ++ c.SysInitPath ++ " " ++ c.Mountpoint.Root ++
      "/sbin/init none bind,ro 0 0") (LxcTemplateCompiled.Execute c st).1 ∧
    HasLine ("lxc.mount.entry =" ++ getResolvConfPath st ++ " " ++ c.Mountpoint.Root ++
      "/etc/resolv.conf none bind,ro 0 0") (LxcTemplateCompiled.Execute c st).1 := by
  have hodd := OrderedIn.infix_of_mem _ _ (mountSection_odd_lines c (getResolvConfPath st))
  have heven := OrderedIn.infix_of_mem _ _ (mountSection_even_lines c (getResolvConfPath st))
  have hm := mountSection_infix c (getResolvConfPath st)
  have hr := rootfsSection_infix c (getResolvConfPath st)
  unfold HasLine Occurs LxcTemplateCompiled.Execute
  refine ⟨List.IsInfix.trans (hasLine_rootfs c) hr, ?_, ?_, ?_, ?_, ?_⟩
  · refine List.IsInfix.trans ?_ hm
    simpa [String.append_assoc] using hodd _ (List.mem_cons_self _ _)
  · refine List.IsInfix.trans ?_ hm
    simpa [String.append_assoc] using heven _ (List.mem_cons_self _ _)
  · refine List.IsInfix.trans ?_ hm
    simpa [String.append_assoc] using hodd _ (List.mem_cons_of_mem _ (List.mem_cons_self _ _))
  · refine List.IsInfix.trans ?_ hm
    simpa [String.append_assoc] using heven _ (List.mem_cons_of_mem _ (List.mem_cons_self _ _))
  · refine List.IsInfix.trans ?_ hm
    simpa [String.append_assoc] using
      hodd _ (List.mem_cons_of_mem _ (List.mem_cons_of_mem _ (List.mem_cons_self _ _)))

/-- Witness of `LxcTemplate_mount_entries`: the resolver mount of the example
container after the run on the example host. -/
theorem LxcTemplate_mount_entries_witness :
    HasLine
      ("lxc.mount.entry =/var/lib/docker/resolv.conf " ++
        "/var/lib/docker/containers/abc123/rootfs/etc/resolv.conf none bind,ro 0 0")
      (LxcTemplateCompiled.Execute exampleContainer exampleFinalState).1 :=
  (LxcTemplate_mount_entries exampleContainer exampleFinalState).2.2.2.2.2

/-- C12: when start-up outside init mode returns from the initial state, the
resolved path goes from unset to one of `/etc/resolv.conf` and
`/var/lib/docker/resolv.conf` by exactly one assignment of `checkResolvConf`;
every later sequence of `getResolvConfPath` calls and renders leaves the state
as it is, each step reads that same path, and so does every render after
them. -/
theorem resolvConfPath_lifecycle (SelfPath : String) (SysInit : State → Outcome × State)
    (iface : String) (host : Host) (st1 : State) (steps : List Step)
    (hmode : SelfPath ≠ "/sbin/init")
    (h : init SelfPath SysInit iface host State.initial = (.returned, st1)) :
    Unresolved State.initial ∧ ¬ Resolved State.initial ∧ Resolved st1 ∧
    checkResolvConfAssignments iface host = [st1.resolvConfPath] ∧
    (runSteps steps st1).2 = st1 ∧
    (runSteps steps st1).1 = steps.map (fun s =>
      match s with
      | .getResolvConfPath => st1.resolvConfPath
      | .render c => LxcTemplate c st1.resolvConfPath) ∧
    (∀ c, (LxcTemplateCompiled.Execute c (runSteps steps st1).2).1 =
      LxcTemplate c st1.resolvConfPath) := by
  have hc : checkResolvConf iface host State.initial = (.returned, st1) := by
    simpa [init, hmode] using h
  have ha := checkResolvConf_path_eq_assignment iface host State.initial
  rw [hc] at ha
  refine ⟨rfl, by simp [Resolved, State.initial], checkResolvConf_resolved iface host _ st1 hc,
    ?_, runSteps_state steps st1, ?_, ?_⟩
  · have hlen := ha.2.1 rfl
    have hlast := ha.1
    match hl : checkResolvConfAssignments iface host, hlen, hlast with
    | [x], _, hlast =>
      simp at hlast
      rw [hlast]
  · rw [runSteps_results]
    apply List.map_congr_left
    intro s _
    exact Step.run_result s st1
  · intro c
    rw [runSteps_state]
    rfl

/-- Witness of `resolvConfPath_lifecycle`: start-up on the example host, then
a read of the path and a render. -/
theorem resolvConfPath_lifecycle_witness :
    "/usr/bin/docker" ≠ "/sbin/init" ∧
    init "/usr/bin/docker" (fun st => (.returned, st)) "lxcbr0" exampleHost State.initial =
      (.returned, exampleFinalState) ∧
    checkResolvConfAssignments "lxcbr0" exampleHost = ["/var/lib/docker/resolv.conf"] ∧
    (runSteps [.getResolvConfPath, .render exampleContainer] exampleFinalState).2 =
      exampleFinalState :=
  ⟨by decide, by decide,
    (resolvConfPath_lifecycle "/usr/bin/docker" (fun st => (.returned, st)) "lxcbr0"
      exampleHost exampleFinalState [.getResolvConfPath, .render exampleContainer]
      (by decide) (by decide)).2.2.2.1,
    (resolvConfPath_lifecycle "/usr/bin/docker" (fun st => (.returned, st)) "lxcbr0"
      exampleHost exampleFinalState [.getResolvConfPath, .render exampleContainer]
      (by decide) (by decide)).2.2.2.2.1⟩

set_option maxRecDepth 20000 in
set_option maxHeartbeats 4000000 in
/-- Executing the parse tree with the functions of `funcMap` succeeds, writes
the text `LxcTemplate` gives for the container and the resolved path, and ends
in the state it started in. -/
theorem ExecuteTree_eq (host : Host) (c : Container) (st : State) :
    LxcTemplateCompiled.ExecuteTree host c st =
      some (LxcTemplate c (getResolvConfPath st), st) := by
  by_cases hh : c.Config.Hostname = "" <;> by_cases hm : c.Config.Memory = 0 <;>
    by_cases hs : getMemorySwap c.Config = 0 <;>
    simp [LxcTemplateCompiled.ExecuteTree, LxcTemplateCompiled.Tree, Tmpl.exec, Pipeline.eval,
      Value.chain, Value.field, Value.isTrue, Value.print, funcMap, evalArgs, List.lookup,
      LxcTemplate, hostnameSection, networkSection, rootfsSection, deviceSection, mountSection,
      capDropSection, limitsSection, hh, hm, hs, String.append_assoc] <;>
    (apply String.ext; simp [String.data_append])

/-- Executing the parse tree is the call `LxcTemplateCompiled.Execute`. -/
theorem ExecuteTree_eq_Execute (host : Host) (c : Container) (st : State) :
    LxcTemplateCompiled.ExecuteTree host c st = some (LxcTemplateCompiled.Execute c st) :=
  ExecuteTree_eq host c st

/-- Execution is not pure by construction: the same tree run with a function
that reads the host's resolver file and records a directory writes a text
that depends on the host and ends in another state. -/
theorem exec_with_intrusive_function :
    (LxcTemplateCompiled.Tree.exec intrusiveFuncMap exampleHost
        (.container exampleContainer) [] exampleFinalState).map Prod.snd ≠
      some exampleFinalState ∧
    (LxcTemplateCompiled.Tree.exec intrusiveFuncMap exampleHost
        (.container exampleContainer) [] exampleFinalState).map Prod.fst ≠
      (LxcTemplateCompiled.Tree.exec intrusiveFuncMap cleanResolverHost
        (.container exampleContainer) [] exampleFinalState).map Prod.fst := by
  decide!

/-- C13: executing the parse tree of the template with the functions `init`
binds, in any two operating systems and any two program states with equal
resolved path and on equal containers, succeeds both times with the same text,
the text `LxcTemplate` gives for the container and that path, and each
execution ends in the state it started in: the text depends on nothing but the
container and the resolved path, and nothing is written. (The same tree with
an intrusive function has neither property, `exec_with_intrusive_function`.) -/
theorem ExecuteTree_deterministic (host1 host2 : Host) (c1 c2 : Container)
    (st1 st2 : State) (hc : c1 = c2) (hp : st1.resolvConfPath = st2.resolvConfPath) :
    ∃ out,
      LxcTemplateCompiled.ExecuteTree host1 c1 st1 = some (out, st1) ∧
      LxcTemplateCompiled.ExecuteTree host2 c2 st2 = some (out, st2) ∧
      out = LxcTemplate c1 st1.resolvConfPath := by
  subst hc
  refine ⟨LxcTemplate c1 st1.resolvConfPath, ?_, ?_, rfl⟩
  · rw [ExecuteTree_eq]
    rfl
  · rw [ExecuteTree_eq, getResolvConfPath, hp]

/-- Witness of `ExecuteTree_deterministic`: the example host in the state after
its run, and a host without bridge in a state with the same path that records
no directory and no file. -/
theorem ExecuteTree_deterministic_witness :
    exampleFinalState ≠
      { resolvConfPath := "/var/lib/docker/resolv.conf", dirs := [], files := [] } ∧
    ∃ out,
      LxcTemplateCompiled.ExecuteTree exampleHost exampleContainer exampleFinalState =
        some (out, exampleFinalState) ∧
      LxcTemplateCompiled.ExecuteTree noBridgeHost exampleContainer
          { resolvConfPath := "/var/lib/docker/resolv.conf", dirs := [], files := [] } =
        some (out, { resolvConfPath := "/var/lib/docker/resolv.conf", dirs := [], files := [] }) ∧
      out = LxcTemplate exampleContainer exampleFinalState.resolvConfPath :=
  ⟨by decide,
    ExecuteTree_deterministic exampleHost noBridgeHost exampleContainer exampleContainer
      exampleFinalState
      { resolvConfPath := "/var/lib/docker/resolv.conf", dirs := [], files := [] } rfl rfl⟩

/-! ## Breadth of the pattern and choice of the address -/

/-- C14: a text has a match of `127(.[0-9]{0,3}){3}` exactly when it holds
`127` immediately followed by three characters none of which is a newline.
So contents without any 127.0.0.0/8 address are rewritten: with the bridge
address `10.0.3.1/24`, `nameserver 10.127.0.5 x` becomes
`nameserver 10.10.0.3.1x` and `127abc` becomes `10.0.3.1`, and in both runs the
resolved path is the persisted copy. -/
theorem pattern_matches_any_127_run :
    (∀ s : List Char, hasMatch s = true ↔ Has127Run s) ∧
    hasLoopbackEntry "nameserver 10.127.0.5 x" = false ∧
    checkResolvConf "lxcbr0" (bridgeHost "nameserver 10.127.0.5 x" ["10.0.3.1/24"])
        State.initial =
      (.returned,
        { resolvConfPath := "/var/lib/docker/resolv.conf"
          dirs := [("/var/lib/docker", 0o700)]
          files := [("/var/lib/docker/resolv.conf", "nameserver 10.10.0.3.1x", 0o644)] }) ∧
    hasLoopbackEntry "127abc" = false ∧
    checkResolvConf "lxcbr0" (bridgeHost "127abc" ["10.0.3.1/24"]) State.initial =
      (.returned,
        { resolvConfPath := "/var/lib/docker/resolv.conf"
          dirs := [("/var/lib/docker", 0o700)]
          files := [("/var/lib/docker/resolv.conf", "10.0.3.1", 0o644)] }) :=
  ⟨hasMatch_iff, by decide, by decide, by decide, by decide⟩

/-- C15, as stated, fails: when the bridge lists the IPv6 address `fe80::1/64`
before the IPv4 address `10.0.3.1/24`, the run substitutes `fe80::1`, the text
of the first entry, and writes `nameserver fe80::1`; the first IPv4 entry would
give `nameserver 10.0.3.1`. -/
theorem checkResolvConf_substitutes_ipv6_first :
    parseIPv4 "fe80::1".data = none ∧
    (ParseCIDR "fe80::1/64").map (fun r => IP.String r.1) = some "fe80::1" ∧
    (ParseCIDR "10.0.3.1/24").map (fun r => IP.String r.1) = some "10.0.3.1" ∧
    checkResolvConf "lxcbr0"
        (bridgeHost "nameserver 127.0.1.1" ["fe80::1/64", "10.0.3.1/24"]) State.initial =
      (.returned,
        { resolvConfPath := "/var/lib/docker/resolv.conf"
          dirs := [("/var/lib/docker", 0o700)]
          files := [("/var/lib/docker/resolv.conf", "nameserver fe80::1", 0o644)] }) ∧
    ReplaceAllLiteral "nameserver 127.0.1.1" "10.0.3.1" ≠ "nameserver fe80::1" := by
  decide

/-- C15, amended: the run depends on the first entry of the bridge's address
list only, whatever follows it and whatever its family; when that entry parses
as CIDR into the address `hostIp`, the text substituted and written is the text
of `hostIp`. -/
theorem checkResolvConf_first_address (iface : String) (host : Host) (st : State)
    (a0 : String) (rest : List String) :
    checkResolvConf iface
        { host with InterfaceByName := fun _ => some ⟨some (a0 :: rest)⟩ } st =
      checkResolvConf iface { host with InterfaceByName := fun _ => some ⟨some [a0]⟩ } st ∧
    (∀ content hostIp network,
      host.ReadFile "/etc/resolv.conf" = some content →
      ParseCIDR a0 = some (hostIp, network) →
      ReplaceAllLiteral content (IP.String hostIp) ≠ content →
      host.MkdirAll "/var/lib/docker" 0o700 = true →
      host.WriteFile "/var/lib/docker/resolv.conf"
        (ReplaceAllLiteral content (IP.String hostIp)) 0o644 = true →
      checkResolvConf iface
          { host with InterfaceByName := fun _ => some ⟨some (a0 :: rest)⟩ } st =
        (.returned,
          { resolvConfPath := "/var/lib/docker/resolv.conf"
            dirs := ("/var/lib/docker", 0o700) :: st.dirs
            files := ("/var/lib/docker/resolv.conf",
              ReplaceAllLiteral content (IP.String hostIp), 0o644) :: st.files })) := by
  refine ⟨by simp only [checkResolvConf], ?_⟩
  intro content hostIp network hr hp hne hm hw
  rw [checkResolvConf_of_parsed iface
    { host with InterfaceByName := fun _ => some ⟨some (a0 :: rest)⟩ } st content
    ⟨some (a0 :: rest)⟩ a0 rest hostIp network hr rfl rfl hp]
  simp [hne, hm, hw]

/-- Witness of `checkResolvConf_first_address`: the example host with a second
address after `10.0.3.1/24`. -/
theorem checkResolvConf_first_address_witness :
    checkResolvConf "lxcbr0"
        { exampleHost with
          InterfaceByName := fun _ => some ⟨some ["10.0.3.1/24", "fe80::1/64"]⟩ }
        State.initial =
      (.returned, exampleFinalState) :=
  (checkResolvConf_first_address "lxcbr0" exampleHost State.initial "10.0.3.1/24"
    ["fe80::1/64"]).2 "nameserver 127.0.1.1" (IPv4 10 0 3 1) [10, 0, 3, 0]
    (by decide) (by decide) (by decide) rfl rfl

/-! ## The swap limit at the edge of `int64` -/

/-- C16: for a container whose `Memory` is a positive `int64`, doubling it
modulo `2 ^ 64` never gives 0, so `getMemorySwap` is 0 exactly when
`MemorySwap < 0`, the limits section omits the swap-limit key exactly when
`MemorySwap < 0`, and otherwise it has the swap-limit line with the wrapped
double of `Memory`. -/
theorem swap_limit_omitted_iff_sentinel (c : Container) (hpos : 0 < c.Config.Memory)
    (hmax : c.Config.Memory < (2 : Int) ^ 63) :
    wrapInt64 (c.Config.Memory * 2) ≠ 0 ∧
    (getMemorySwap c.Config = 0 ↔ c.Config.MemorySwap < 0) ∧
    (¬ Occurs "lxc.cgroup.memory.memsw.limit_in_bytes" (limitsSection c) ↔
      c.Config.MemorySwap < 0) ∧
    (¬ c.Config.MemorySwap < 0 →
      HasLine (swapLimitDirective (wrapInt64 (c.Config.Memory * 2))) (limitsSection c)) := by
  have hw := wrapInt64_double_ne_zero c.Config.Memory hpos hmax
  have hne : c.Config.Memory ≠ 0 := by omega
  have hiff : getMemorySwap c.Config = 0 ↔ c.Config.MemorySwap < 0 := by
    unfold getMemorySwap
    constructor
    · intro h
      by_contra hs
      rw [if_neg hs] at h
      exact hw h
    · intro hs
      rw [if_pos hs]
  refine ⟨hw, hiff, ⟨?_, ?_⟩, ?_⟩
  · intro hno
    by_contra hs
    have hs0 : getMemorySwap c.Config ≠ 0 := fun h0 => hs (hiff.mp h0)
    have hline := hasLine_swapLimit c hne hs0
    have hkey : ("lxc.cgroup.memory.memsw.limit_in_bytes" : String).data <:+:
        ("\n" ++ swapLimitDirective (getMemorySwap c.Config) ++ "\n").data :=
      ⟨"\n".data, (" = " ++ printInt (getMemorySwap c.Config) ++ "\n").data, by
        simp [swapLimitDirective, String.data_append]⟩
    exact hno (List.IsInfix.trans hkey hline)
  · intro hs
    exact no_swap_key c (hiff.mpr hs)
  · intro hs
    have hs0 : getMemorySwap c.Config ≠ 0 := fun h0 => hs (hiff.mp h0)
    have hline := hasLine_swapLimit c hne hs0
    have hval : getMemorySwap c.Config = wrapInt64 (c.Config.Memory * 2) := by
      unfold getMemorySwap
      rw [if_neg hs]
    rw [hval] at hline
    exact hline

/-- Witness of `swap_limit_omitted_iff_sentinel` at `Memory = 2 ^ 62`, whose
double wraps to `-2 ^ 63`. -/
theorem swap_limit_omitted_iff_sentinel_witness :
    0 < hugeMemoryContainer.Config.Memory ∧
    hugeMemoryContainer.Config.Memory < (2 : Int) ^ 63 ∧
    wrapInt64 (hugeMemoryContainer.Config.Memory * 2) ≠ 0 :=
  ⟨by decide, by decide,
    (swap_limit_omitted_iff_sentinel hugeMemoryContainer (by decide) (by decide)).1⟩

/-- C17: for an `int64` `Memory` and `MemorySwap ≥ 0`, `getMemorySwap` returns
`2 × Memory` reduced to an `int64` modulo `2 ^ 64`; the result is `2 × Memory`
exactly when `-2 ^ 62 ≤ Memory < 2 ^ 62`; and for `2 ^ 62 ≤ Memory` it is
`2 × Memory - 2 ^ 64`, a negative number, which the limits section prints,
with its sign, as the swap limit. -/
theorem getMemorySwap_wraps (c : Container) (hM : IsInt64 c.Config.Memory)
    (hS : 0 ≤ c.Config.MemorySwap) :
    getMemorySwap c.Config = wrapInt64 (2 * c.Config.Memory) ∧
    IsInt64 (getMemorySwap c.Config) ∧
    (∃ k : Int, getMemorySwap c.Config = 2 * c.Config.Memory + k * (2 : Int) ^ 64) ∧
    (getMemorySwap c.Config = 2 * c.Config.Memory ↔
      -(2 : Int) ^ 62 ≤ c.Config.Memory ∧ c.Config.Memory < (2 : Int) ^ 62) ∧
    ((2 : Int) ^ 62 ≤ c.Config.Memory →
      getMemorySwap c.Config = 2 * c.Config.Memory - (2 : Int) ^ 64 ∧
      getMemorySwap c.Config < 0 ∧
      HasLine ("lxc.cgroup.memory.memsw.limit_in_bytes = " ++ "-" ++
        toString (2 * c.Config.Memory - (2 : Int) ^ 64).natAbs) (limitsSection c)) := by
  obtain ⟨hlo, hhi⟩ := hM
  have hval : getMemorySwap c.Config = wrapInt64 (2 * c.Config.Memory) := by
    unfold getMemorySwap
    rw [if_neg (by omega), Int.mul_comm]
  refine ⟨hval, ?_, ?_, ?_, ?_⟩
  · rw [hval]
    unfold IsInt64 wrapInt64
    omega
  · rw [hval]
    unfold wrapInt64
    refine ⟨-((2 * c.Config.Memory + (2 : Int) ^ 63) / (2 : Int) ^ 64), ?_⟩
    have := Int.emod_add_ediv (2 * c.Config.Memory + (2 : Int) ^ 63) ((2 : Int) ^ 64)
    linarith
  · rw [hval]
    unfold wrapInt64
    constructor <;> intro h <;> omega
  · intro hbig
    have hres : getMemorySwap c.Config = 2 * c.Config.Memory - (2 : Int) ^ 64 := by
      rw [hval]
      unfold wrapInt64
      omega
    have hneg : getMemorySwap c.Config < 0 := by
      rw [hres]
      omega
    refine ⟨hres, hneg, ?_⟩
    have hne : c.Config.Memory ≠ 0 := by omega
    have hline := hasLine_swapLimit c hne (by omega)
    rw [hres] at hline hneg
    unfold swapLimitDirective at hline
    rw [printInt_neg _ hneg, ← String.append_assoc] at hline
    exact hline

/-- Witness of `getMemorySwap_wraps` at `Memory = 2 ^ 62`: the swap limit
printed is `-9223372036854775808`. -/
theorem getMemorySwap_wraps_witness :
    IsInt64 hugeMemoryContainer.Config.Memory ∧ 0 ≤ hugeMemoryContainer.Config.MemorySwap ∧
    getMemorySwap hugeMemoryContainer.Config = -9223372036854775808 ∧
    HasLine "lxc.cgroup.memory.memsw.limit_in_bytes = -9223372036854775808"
      (limitsSection hugeMemoryContainer) :=
  ⟨by decide, by decide,
    ((getMemorySwap_wraps hugeMemoryContainer (by decide) (by decide)).2.2.2.2
      (by decide)).1,
    ((getMemorySwap_wraps hugeMemoryContainer (by decide) (by decide)).2.2.2.2
      (by decide)).2.2⟩

end Docker
